import Mathlib

/-!
A shallow embedding of the structural-analysis core of the
`py_bridge_designer` repository (files `parameters.py`, `members.py`,
`scenario.py`, `bridge.py`, `cost.py`, `analysis.py`), together with
theorems settling the frozen claims about it.

Modelling conventions:
* Python `float` values are modelled as exact rationals (`ℚ`); the float
  library function `sqrt` is modelled by `Rat.sqrt` (exact on perfect
  squares, which covers every concrete instance used below), and the float
  library function `pow` (used once, for `0.66 ** lam`) is passed in as an
  explicit function parameter `fpow` wherever it is needed.
* Python `int` grid coordinates are `ℤ`; 1-based ids and counts are `ℕ`.
* Python lists that are only read and appended to are Lean `List`s.
  The presized list-of-lists buffers that are mutated cell by cell (the
  stiffness, displacement and member-force matrices) are modelled by the
  write-log type `QMat` below; the load-instance vectors are modelled as
  total functions `ℕ → ℕ → ℚ` (instance index, entry index) with the
  instance and equation counts carried alongside, and an in-place
  element write becomes a pointwise functional update.
* Python dicts (`joint_coords`, `member_coords`) are association lists;
  insertion prepends, lookup takes the first hit, which agrees with dict
  semantics for the operations the code performs.
* Python's builtin `round` is round-half-to-even, embedded as `pyRound`.
* Cosmetic name strings built with f-strings (`Shape.name`) are omitted;
  every field the core reads is embedded.
-/

namespace PyBridge

/-- Functional update of a one-argument table at one index. -/
def upd1 (v : ℕ → ℚ) (i : ℕ) (x : ℚ) : ℕ → ℚ :=
  fun i' => if i' = i then x else v i'

/-- Most recent write to cell `(i, j)` in a write log, `0` if none. -/
def qfind : List ((ℕ × ℕ) × ℚ) → ℕ → ℕ → ℚ
  | [], _, _ => 0
  | (p, x) :: rest, i, j => if p.1 = i ∧ p.2 = j then x else qfind rest i j

/-- A dense 2D float matrix that is mutated cell by cell (the Python
list-of-lists `stiffness`, `displacement` and `member_force` buffers).
All three start as all-zero arrays, so the representation is the log of
in-place writes: a write prepends, a read takes the most recent write
(every Python write is in range because the arrays are presized). -/
structure QMat where
  ups : List ((ℕ × ℕ) × ℚ)

/-- Read cell `(i, j)` (0-based). -/
def QMat.get (m : QMat) (i j : ℕ) : ℚ := qfind m.ups i j

/-- Write cell `(i, j)` (0-based). -/
def QMat.set (m : QMat) (i j : ℕ) (x : ℚ) : QMat := ⟨((i, j), x) :: m.ups⟩

/-- The all-zero matrix. -/
def QMat.zero : QMat := ⟨[]⟩

/-- Python `round`: round half to even (banker's rounding). -/
def pyRound (q : ℚ) : ℤ :=
  let f := ⌊q⌋
  let r := q - (f : ℚ)
  if r < 1/2 then f
  else if 1/2 < r then f + 1
  else if f % 2 = 0 then f else f + 1

/-- Python list indexing with negative-index wrap-around, total with a
default out of range (the source never indexes out of range). -/
def pyGetD {α : Type} (l : List α) (i : ℤ) (d : α) : α :=
  l.getD (if i < 0 then i + l.length else i).toNat d

/-! ## parameters.py -/

def N_SECTIONS : ℕ := 2
def N_BAR_SIZES : ℕ := 33
def N_TUBE_SIZES : ℕ := 33

/-- `_width_tbl` from parameters.py. -/
def width_tbl : List ℚ :=
  [30, 35, 40, 45, 50, 55, 60, 65, 70, 75, 80,
   90, 100, 110, 120, 130, 140, 150, 160, 170, 180, 190, 200,
   220, 240, 260, 280, 300,
   320, 340, 360, 400, 500]

/-- `_sqr` from parameters.py. -/
def _sqr (x : ℚ) : ℚ := x * x

/-- `_p4` from parameters.py. -/
def _p4 (x : ℚ) : ℚ := _sqr (_sqr x)

/-- `Material` from parameters.py (`cost` is indexed by section). -/
structure Material where
  name : String
  short_name : String
  E : ℚ
  Fy : ℚ
  density : ℚ
  cost : List ℚ
deriving DecidableEq

instance : Inhabited Material := ⟨⟨"", "", 0, 0, 0, []⟩⟩

/-- `Shape` from parameters.py (the cosmetic `name` string is omitted). -/
structure Shape where
  width : ℚ
  area : ℚ
  moment : ℚ
deriving DecidableEq

instance : Inhabited Shape := ⟨⟨0, 0, 0⟩⟩

/-- `LoadCase` from parameters.py. -/
structure LoadCase where
  name : String
  point_dead_load : ℚ
  front_axle_load : ℚ
  rear_axle_load : ℚ

instance : Inhabited LoadCase := ⟨⟨"", 0, 0, 0⟩⟩

def DEAD_LOAD_FACTOR : ℚ := 1.35

/-- `Params` from parameters.py. -/
structure Params where
  slenderness_limit : ℚ
  dead_load_factor : ℚ
  live_load_factor : ℚ
  compression_resistance_factor : ℚ
  tension_resistance_factor : ℚ
  load_cases : List LoadCase
  connection_cost : ℚ
  ordering_fee : ℚ
  materials : List Material
  n_sizes : List ℕ
  shapes : List (List Shape)

/-- Bar shape of a given width: `area = w² · 1e-6`, `moment = w⁴/12 · 1e-12`. -/
def mkBarShape (w : ℚ) : Shape :=
  ⟨w, _sqr w * (1 / 1000000), _p4 w / 12 * (1 / 1000000000000)⟩

/-- Tube shape of a given width, wall thickness `w/20` floored at 2. -/
def mkTubeShape (w : ℚ) : Shape :=
  let tube_thickness := if w / 20 < 2 then 2 else w / 20
  ⟨w, (_sqr w - _sqr (w - 2 * tube_thickness)) * (1 / 1000000),
    (_p4 w - _p4 (w - 2 * tube_thickness)) / 12 * (1 / 1000000000000)⟩

/-- `Params.__init__` from parameters.py: the full static catalog. -/
def Params.init : Params where
  slenderness_limit := 300
  dead_load_factor := DEAD_LOAD_FACTOR
  live_load_factor := 1.75 * 1.33
  compression_resistance_factor := 0.90
  tension_resistance_factor := 0.95
  load_cases :=
    [⟨"Case A (Heavy Deck, Light Truck)", DEAD_LOAD_FACTOR * 120.265 + 33.097, 44.0, 181.0⟩,
     ⟨"Case B (Heavy Deck, Heavy Truck)", DEAD_LOAD_FACTOR * 120.265 + 33.097, 124.0, 124.0⟩,
     ⟨"Case C (Light Deck, Light Truck)", DEAD_LOAD_FACTOR * 82.608 + 33.097, 44.0, 181.0⟩,
     ⟨"Case D (Light Deck, Heavy Truck)", DEAD_LOAD_FACTOR * 82.608 + 33.097, 124.0, 124.0⟩]
  connection_cost := 400.0
  ordering_fee := 1000.0
  materials :=
    [⟨"Carbon Steel (A36)", "CS", 200000000.0, 250000.0, 7850.0, [4.30, 6.30]⟩,
     ⟨"High Strength Steel (A572)", "HSS", 200000000.0, 345000.0, 7850.0, [5.60, 7.00]⟩,
     ⟨"Quenched & Tempered Steel", "QTS", 200000000.0, 485000.0, 7850.0, [6.00, 7.70]⟩]
  n_sizes := [N_BAR_SIZES, N_TUBE_SIZES]
  shapes := [width_tbl.map mkBarShape, width_tbl.map mkTubeShape]

/-! ## members.py -/

/-- `_world_coords` from members.py. -/
def _world_coords (grid : ℤ) (grid_size : ℚ) : ℚ := (grid : ℚ) * grid_size

/-- `Joint` from members.py. -/
structure Joint where
  number : ℕ
  x : ℤ
  y : ℤ
deriving DecidableEq

instance : Inhabited Joint := ⟨⟨0, 0, 0⟩⟩

/-- `CrossSection` from members.py (`sectionIdx` renders the Python field
`section`, a Lean keyword). -/
structure CrossSection where
  material : Material
  material_index : ℕ
  sectionIdx : ℕ
  size : ℕ
deriving DecidableEq

/-- `CrossSection.__init__`: resolve the material against the catalog. -/
def CrossSection.init (parameters : Params) (material_index sectionIdx size : ℕ) :
    CrossSection :=
  ⟨parameters.materials.getD material_index default, material_index, sectionIdx, size⟩

/-- `CrossSection.is_equal` from members.py. -/
def CrossSection.is_equal (self c : CrossSection) : Bool :=
  self.material.short_name == c.material.short_name
    && self.sectionIdx == c.sectionIdx && self.size == c.size

/-- `Member` from members.py (the write-only `compression`/`tension`
scratch fields are omitted; derived geometry is stored, as in the source). -/
structure Member where
  number : ℕ
  start_joint : Joint
  end_joint : Joint
  cross_section : CrossSection
  length : ℚ
  cos_x : ℚ
  cos_y : ℚ
deriving DecidableEq

instance : Inhabited Member := ⟨⟨0, default, default, ⟨default, 0, 0, 0⟩, 0, 0, 0⟩⟩

/-- `Member.__init__`: geometry from the two joints; float `sqrt` is
modelled by `Rat.sqrt`. -/
def Member.init (number : ℕ) (start_joint end_joint : Joint)
    (cross_section : CrossSection) (grid_size : ℚ) : Member :=
  let dx := _world_coords (end_joint.x - start_joint.x) grid_size
  let dy := _world_coords (end_joint.y - start_joint.y) grid_size
  let len := Rat.sqrt (dx * dx + dy * dy)
  ⟨number, start_joint, end_joint, cross_section, len, dx / len, dy / len⟩

/-! ## scenario.py -/

def CABLE_ANCHORAGE_X_OFFSET : ℤ := 32
def ARCH_SUPPORT : ℕ := 1
def CABLE_SUPPORT_LEFT : ℕ := 2
def CABLE_SUPPORT_BOTH : ℕ := 4
def INTERMEDIATE_SUPPORT : ℕ := 8
def HI_NOT_LO : ℕ := 16

/-- Modelled from the spec: `analysis.py` imports a constant `HIGH_PIER`
from `scenario.py`, but `scenario.py` does not define it.  The spec's
low-pier/high-pier distinction is carried by the `HI_NOT_LO` flag (the
digit-10 "0 = low pier, 1 = high pier" of the scenario id), so the missing
constant is identified with that flag value. -/
def HIGH_PIER : ℕ := 16

/-- Modelled from the spec: `scenario_descriptions.py` (the 392-row
scenario table) is not under src.  A descriptor carries the 10-character
scenario id — represented as its list of decimal digits — and the site
cost; these are the only descriptor fields the core reads. -/
structure ScenarioDescriptor where
  id : List ℕ
  site_cost : ℚ

/-- Digit `i` (0-based) of the scenario id, as `int(desc.id[i])`. -/
def ScenarioDescriptor.digit (desc : ScenarioDescriptor) (i : ℕ) : ℕ :=
  desc.id.getD i 0

/-- `LoadScenario` from scenario.py: every field `__init__` derives. -/
structure LoadScenario where
  desc : ScenarioDescriptor
  support_type : ℕ
  intermediate_support_joint_no : ℕ
  under_meters : ℕ
  over_meters : ℕ
  n_panels : ℕ
  load_case : ℤ
  grid_size : ℚ
  over_grids : ℕ
  under_grids : ℕ
  num_length_grids : ℕ
  n_loaded_joints : ℕ
  prescribed_joints : List Joint
  cable_anchors_x : Option (List ℤ)
  max_x : ℤ
  min_x : ℤ
  n_prescribed_joints : ℕ

/-- `LoadScenario.__init__` from scenario.py, as a function of the
(modelled) descriptor.  Mirrors the source statement by statement,
including the successive overwrites of `support_type` and the
`(support_type == INTERMEDIATE_SUPPORT) and (support_type != HI_NOT_LO)`
guards. -/
def LoadScenario.init (desc : ScenarioDescriptor) : LoadScenario :=
  -- Setup Support Types
  let support_type : ℕ := 0
  -- digit 10 => (0 = low pier, 1 = high pier)
  let support_type := if desc.digit 9 > 0 then HI_NOT_LO else support_type
  -- digit 9 => panel point at which pier is located. (0 = no pier).
  let intermediate_support_joint_no := desc.digit 8
  let support_type :=
    if intermediate_support_joint_no > 0 then INTERMEDIATE_SUPPORT else support_type
  -- digit 8 => (0 = simple, 1 = arch, 2 = cable left, 3 = cable both)
  let support_type :=
    if desc.digit 7 = 1 then ARCH_SUPPORT
    else if desc.digit 7 = 2 then CABLE_SUPPORT_LEFT
    else if desc.digit 7 = 3 then CABLE_SUPPORT_BOTH
    else support_type
  -- Setup Other Values
  let under_meters := 10 * desc.digit 5 + desc.digit 6
  let over_meters := 10 * desc.digit 3 + desc.digit 4
  let n_panels := 10 * desc.digit 1 + desc.digit 2
  let load_case : ℤ := (desc.digit 0 : ℤ) - 1
  let grid_size : ℚ := 0.25
  let panel_size : ℤ := 16
  let over_grids := over_meters * 4
  let under_grids := under_meters * 4
  let num_length_grids := n_panels * 16
  let n_loaded_joints := n_panels + 1
  -- Loaded joints are prescribed.
  let n_prescribed_joints := n_loaded_joints
  -- Update Support Types and Joints
  let n_prescribed_joints :=
    if support_type = INTERMEDIATE_SUPPORT ∧ support_type ≠ HI_NOT_LO
    then n_prescribed_joints + 1 else n_prescribed_joints
  let n_prescribed_joints :=
    if support_type = ARCH_SUPPORT then n_prescribed_joints + 2 else n_prescribed_joints
  let n_prescribed_joints :=
    if support_type = CABLE_SUPPORT_LEFT ∨ support_type = CABLE_SUPPORT_BOTH
    then n_prescribed_joints + 1 else n_prescribed_joints
  let n_prescribed_joints :=
    if support_type = CABLE_SUPPORT_BOTH then n_prescribed_joints + 1 else n_prescribed_joints
  -- Fill prescribed_joints Vector
  let deckJoints : List Joint :=
    (List.range n_loaded_joints).map (fun k => ⟨k + 1, panel_size * k, 0⟩)
  let x_values : List ℤ := (List.range n_loaded_joints).map (fun k => panel_size * k)
  let joint_index := n_loaded_joints
  -- Low intermediate support, if any
  let pierJoints : List Joint :=
    if support_type = INTERMEDIATE_SUPPORT ∧ support_type ≠ HI_NOT_LO
    then [⟨joint_index + 1, (intermediate_support_joint_no - 1 : ℤ) * panel_size,
           -(under_grids : ℤ)⟩]
    else []
  let x_values := x_values ++ pierJoints.map (·.x)
  let joint_index := joint_index + pierJoints.length
  -- Arch base supports, if any
  let lastDeckX : ℤ := (deckJoints.getD (n_loaded_joints - 1) default).x
  let archJoints : List Joint :=
    if support_type = ARCH_SUPPORT
    then [⟨joint_index + 1, 0, -(under_grids : ℤ)⟩,
          ⟨joint_index + 2, lastDeckX, -(under_grids : ℤ)⟩]
    else []
  let x_values := x_values ++ archJoints.map (·.x)
  let joint_index := joint_index + archJoints.length
  -- max/min computed before anchorages are appended
  let max_x := x_values.foldl max (x_values.headD 0)
  let min_x := x_values.foldl min (x_values.headD 0)
  -- Cable anchorages, if any
  let cable_anchors_x : Option (List ℤ) :=
    if support_type = CABLE_SUPPORT_LEFT ∨ support_type = CABLE_SUPPORT_BOTH
    then some (if support_type = CABLE_SUPPORT_BOTH
               then [-CABLE_ANCHORAGE_X_OFFSET, lastDeckX + CABLE_ANCHORAGE_X_OFFSET]
               else [-CABLE_ANCHORAGE_X_OFFSET])
    else none
  let anchorJoints : List Joint :=
    if support_type = CABLE_SUPPORT_LEFT ∨ support_type = CABLE_SUPPORT_BOTH
    then (if support_type = CABLE_SUPPORT_BOTH
          then [⟨joint_index + 1, -CABLE_ANCHORAGE_X_OFFSET, 0⟩,
                ⟨joint_index + 2, lastDeckX + CABLE_ANCHORAGE_X_OFFSET, 0⟩]
          else [⟨joint_index + 1, -CABLE_ANCHORAGE_X_OFFSET, 0⟩])
    else []
  { desc := desc
    support_type := support_type
    intermediate_support_joint_no := intermediate_support_joint_no
    under_meters := under_meters
    over_meters := over_meters
    n_panels := n_panels
    load_case := load_case
    grid_size := grid_size
    over_grids := over_grids
    under_grids := under_grids
    num_length_grids := num_length_grids
    n_loaded_joints := n_loaded_joints
    prescribed_joints := deckJoints ++ pierJoints ++ archJoints ++ anchorJoints
    cable_anchors_x := cable_anchors_x
    max_x := max_x
    min_x := min_x
    n_prescribed_joints := n_prescribed_joints }

/-! ## bridge.py -/

/-- `BridgeError` from bridge.py. -/
inductive BridgeError where
  | BridgeNoError
  | BridgeAtMaxJoints
  | BridgeJointNotConnected
  | BridgeJointOutOfBounds
  | BridgeJointsAreEqual
deriving DecidableEq, Repr

open BridgeError

/-- Shape lookup `parameters.shapes[sec][size]`. -/
def shapeOf (p : Params) (sec size : ℕ) : Shape :=
  (p.shapes.getD sec []).getD size default

/-- `Bridge` state from bridge.py (`__init__` fields the core reads;
the fixed numeric attributes `max_y = 32`, `min_y = -96`,
`max_joints = 128` appear below as constants). -/
structure Bridge where
  load_scenario : LoadScenario
  n_joints : ℕ
  joints : List Joint
  joint_coords : List ((ℤ × ℤ) × Joint)
  parameters : Params
  n_members : ℕ
  members : List Member
  member_coords : List (ℕ × ℕ)
  pad_x_action : ℤ
  pad_y_action : ℤ
  max_x_action : ℤ
  max_y_action : ℤ
  min_x_action : ℤ
  min_y_action_value : ℤ

def Bridge.max_y : ℤ := 32
def Bridge.min_y : ℤ := -96
def Bridge.max_joints : ℕ := 128

/-- Dict insertion: prepend, so that lookup (first match) sees the most
recent binding, as a Python dict would. -/
def dictInsert (m : List ((ℤ × ℤ) × Joint)) (k : ℤ × ℤ) (v : Joint) :
    List ((ℤ × ℤ) × Joint) :=
  (k, v) :: m

/-- `(x, y) in self.joint_coords`. -/
def coordsMem (m : List ((ℤ × ℤ) × Joint)) (k : ℤ × ℤ) : Bool :=
  (m.lookup k).isSome

/-- `Bridge.__init__` from bridge.py, as a function of the (modelled)
scenario descriptor. -/
def Bridge.init (desc : ScenarioDescriptor) : Bridge :=
  let load_scenario := LoadScenario.init desc
  let n_joints := load_scenario.n_prescribed_joints
  let joints := load_scenario.prescribed_joints.take n_joints
  let joint_coords := joints.foldl (fun m j => dictInsert m (j.x, j.y) j) []
  let max_x_action := load_scenario.max_x + 1
  let max_y_action := Bridge.max_y + 1
  let min_x_action := load_scenario.min_x
  let min_y_action_value := Bridge.min_y
  let pad_x_action : ℤ := if min_x_action < 0 then |min_x_action| else 0
  let pad_y_action : ℤ := if min_y_action_value < 0 then |min_y_action_value| else 0
  { load_scenario := load_scenario
    n_joints := n_joints
    joints := joints
    joint_coords := joint_coords
    parameters := Params.init
    n_members := 0
    members := []
    member_coords := []
    pad_x_action := pad_x_action
    pad_y_action := pad_y_action
    max_x_action := max_x_action + pad_x_action
    max_y_action := max_y_action + pad_y_action
    min_x_action := min_x_action
    min_y_action_value := min_y_action_value }

/-- `Bridge._add_joint` from bridge.py: returns
(joint accepted?, error, updated bridge). -/
def Bridge._add_joint (b : Bridge) (coords : ℤ × ℤ) : Bool × BridgeError × Bridge :=
  let x := coords.1
  let y := coords.2
  -- Check if the bridge has reached the maximum amount of joints
  if b.n_joints = Bridge.max_joints then
    (false, BridgeAtMaxJoints, b)
  -- check x (only rejected when the scenario has cable anchors and x is not one)
  else if (x > (b.load_scenario.num_length_grids : ℤ) ∨ x < 0) ∧
      (match b.load_scenario.cable_anchors_x with
       | some anchors => decide (¬ x ∈ anchors)
       | none => false) = true then
    (false, BridgeJointOutOfBounds, b)
  -- check y
  else if y > (b.load_scenario.over_grids : ℤ) ∨ y < -(b.load_scenario.under_grids : ℤ) then
    (false, BridgeJointOutOfBounds, b)
  else
    -- Add the joint
    let n_joints := b.n_joints + 1
    let joint : Joint := ⟨n_joints, x, y⟩
    (true, BridgeJointNotConnected,
      { b with
        n_joints := n_joints
        joints := b.joints ++ [joint]
        joint_coords := dictInsert b.joint_coords coords joint })

/-- `Bridge.add_member` from bridge.py: returns (error code, updated
bridge).  The returned error code is exactly the Python return value;
the bridge is the post-call state. -/
def Bridge.add_member (b : Bridge) (start_x start_y end_x end_y : ℤ)
    (material_index sectionIdx size : ℕ) : BridgeError × Bridge :=
  -- Apply the padding
  let start_x := start_x - b.pad_x_action
  let start_y := start_y - b.pad_y_action
  let end_x := end_x - b.pad_x_action
  let end_y := end_y - b.pad_y_action
  -- Check if joints are equal
  if start_x = end_x ∧ start_y = end_y then
    (BridgeJointsAreEqual, b)
  -- Enforce that one of the joints must already exist
  else if ¬ coordsMem b.joint_coords (start_x, start_y) ∧
      ¬ coordsMem b.joint_coords (end_x, end_y) then
    (BridgeJointNotConnected, b)
  else
    -- Add new joint on either end if needed
    let step : Bool × BridgeError × Bridge :=
      if ¬ coordsMem b.joint_coords (start_x, start_y) then
        b._add_joint (start_x, start_y)
      else if ¬ coordsMem b.joint_coords (end_x, end_y) then
        b._add_joint (end_x, end_y)
      else
        (true, BridgeNoError, b)
    match step with
    | (false, bridge_error, b') => (bridge_error, b')
    | (true, bridge_error, b') =>
      let start_joint := ((b'.joint_coords.lookup (start_x, start_y)).getD default)
      let end_joint := ((b'.joint_coords.lookup (end_x, end_y)).getD default)
      let cross_section := CrossSection.init b'.parameters material_index sectionIdx size
      let n_members := b'.n_members + 1
      let member := Member.init n_members start_joint end_joint cross_section
        b'.load_scenario.grid_size
      (bridge_error,
        { b' with
          n_members := n_members
          members := b'.members ++ [member]
          member_coords :=
            (end_joint.number, start_joint.number) ::
              (start_joint.number, end_joint.number) :: b'.member_coords })

/-! ## cost.py -/

/-- `calculate_cost` from cost.py.  The member loop is a left fold
carrying the `used` cross-section list and the accumulated material
cost. -/
def calculate_cost (bridge : Bridge) : ℤ :=
  let step : List CrossSection × ℚ → Member → List CrossSection × ℚ :=
    fun (used, mtl_cost) member =>
      let xs := member.cross_section
      let mtl_cost := mtl_cost +
        xs.material.cost.getD xs.sectionIdx 0 *
          (shapeOf bridge.parameters xs.sectionIdx xs.size).area *
          member.length * xs.material.density
      -- Look for this cross-section in the list of those already used
      let found := (used.map (fun u => if xs.is_equal u then (0 : ℕ) else 1)).sum
      if found = used.length then (used ++ [xs], mtl_cost) else (used, mtl_cost)
  let (used, mtl_cost) := bridge.members.foldl step ([], 0)
  let product_cost : ℚ := used.length * bridge.parameters.ordering_fee
  let connection_cost : ℚ := bridge.n_joints * bridge.parameters.connection_cost
  let total_cost : ℚ := 2 * (mtl_cost + connection_cost) +
    product_cost + bridge.load_scenario.desc.site_cost
  pyRound total_cost

/-! ## bridge.py: load assembly -/

/-- The load state `_apply_loads` builds on the bridge: the equation
count, the load-instance count, and the load vectors.  The Python list
of `n_load_instances + 1` lists of `n_equations + 1` floats is a total
function `(instance, entry) ↦ value`; entries outside those ranges are
never read. -/
structure BridgeLoads where
  n_equations : ℕ
  n_load_instances : ℕ
  load_instances : ℕ → ℕ → ℚ

/-- Subtract `x` from entry `j` of every load-instance vector
(`for point_load in self.load_instances: point_load[j] -= x`). -/
def decAll (f : ℕ → ℕ → ℚ) (j : ℕ) (x : ℚ) : ℕ → ℕ → ℚ :=
  fun i' j' => if j' = j then f i' j' - x else f i' j'

/-- Subtract `x` from entry `j` of the load-instance vector `i` only. -/
def decOne (f : ℕ → ℕ → ℚ) (i j : ℕ) (x : ℚ) : ℕ → ℕ → ℚ :=
  fun i' j' => if i' = i ∧ j' = j then f i' j' - x else f i' j'

/-- `Bridge._setup_load_instances`. -/
def Bridge._setup_load_instances (b : Bridge) : BridgeLoads :=
  { n_equations := b.n_joints * 2
    n_load_instances := b.load_scenario.n_loaded_joints + 1
    load_instances := fun _ _ => 0 }

/-- `Bridge._apply_self_weights`. -/
def Bridge._apply_self_weights (b : Bridge) (ld : BridgeLoads) : BridgeLoads :=
  { ld with
    load_instances := b.members.foldl
      (fun f member =>
        let xs := member.cross_section
        let dead_load : ℚ := b.parameters.dead_load_factor *
          (shapeOf b.parameters xs.sectionIdx xs.size).area *
          member.length * xs.material.density * 9.8066 / 2.0 / 1000.0
        let force_point_1 := 2 * member.start_joint.number
        let force_point_2 := 2 * member.end_joint.number
        decAll (decAll f force_point_1 dead_load) force_point_2 dead_load)
      ld.load_instances }

/-- The loop body of `Bridge._apply_dead_load` for one joint. -/
def deadStep (load_case : LoadCase) (n_loaded_joints : ℕ)
    (f : ℕ → ℕ → ℚ) (joint : Joint) : ℕ → ℕ → ℚ :=
  let force_point := 2 * joint.number
  let load := load_case.point_dead_load
  -- Account for the ends of the bridge deck
  let load := if joint.number = 1 ∨ joint.number = n_loaded_joints
              then load / 2 else load
  decAll f force_point load

/-- `Bridge._apply_dead_load`.  Note the loop runs over every joint of
the bridge (`for joint in self.joints`), not only the loaded deck
joints. -/
def Bridge._apply_dead_load (b : Bridge) (ld : BridgeLoads) : BridgeLoads :=
  let load_scenario := b.load_scenario
  let load_case := pyGetD b.parameters.load_cases load_scenario.load_case default
  { ld with
    load_instances := b.joints.foldl
      (deadStep load_case load_scenario.n_loaded_joints) ld.load_instances }

/-- The loop body of `Bridge._apply_live_load` for one load instance
`i`: front axle at entry `2 * i`, rear axle at entry `2 * i - 2`. -/
def liveStep (f : ℕ → ℕ → ℚ) (i : ℕ) (front rear : ℚ) : ℕ → ℕ → ℚ :=
  let force_point_front := 2 * i
  let force_point_rear := force_point_front - 2
  decOne (decOne f i force_point_front front) i force_point_rear rear

/-- `Bridge._apply_live_load`.  The Python loop is
`for i in range(2, self.n_load_instances)`, whose iteration list is
`[2, ..., n_load_instances - 1]`. -/
def Bridge._apply_live_load (b : Bridge) (ld : BridgeLoads) : BridgeLoads :=
  let load_case := pyGetD b.parameters.load_cases b.load_scenario.load_case default
  { ld with
    load_instances := (List.range' 2 (ld.n_load_instances - 2)).foldl
      (fun f i => liveStep f i
        (b.parameters.live_load_factor * load_case.front_axle_load)
        (b.parameters.live_load_factor * load_case.rear_axle_load))
      ld.load_instances }

/-- `Bridge._apply_loads`. -/
def Bridge._apply_loads (b : Bridge) : BridgeLoads :=
  b._apply_live_load (b._apply_dead_load (b._apply_self_weights b._setup_load_instances))

/-! ## analysis.py -/

/-- `_fold_max` from analysis.py: `x if x > m else m`. -/
def _fold_max (m x : ℚ) : ℚ := if x > m then x else m

/-- `_square` from analysis.py. -/
def _square (x : ℚ) : ℚ := x * x

/-- `AnalysisError` from analysis.py. -/
inductive AnalysisError where
  | NoAnalysisError
  | AnalysisBadPivot
deriving DecidableEq, Repr

/-- `FailMode` from analysis.py. -/
inductive FailMode where
  | FailModeNone
  | FailModeBuckles
  | FailModeYields
  | FailModeSlenderness
deriving DecidableEq, Repr

open FailMode

/-- `MemberStrength` from analysis.py. -/
structure MemberStrength where
  compressive : ℚ
  tensile : ℚ
  compressive_fail_mode : FailMode
  tensile_fail_mode : FailMode
deriving DecidableEq, Repr

/-- `MaxForces` from analysis.py. -/
structure MaxForces where
  compression : ℚ
  tension : ℚ
deriving DecidableEq, Repr

/-- Functional update of a one-argument table. -/
def updF {α : Type} (v : ℕ → α) (i : ℕ) (x : α) : ℕ → α :=
  fun i' => if i' = i then x else v i'

/-- `Analysis._get_stiffness`: 1-based access into the 0-based store.
The displacement and member-force matrices use the same accessor. -/
def getS (m : QMat) (i j : ℕ) : ℚ := m.get (i - 1) (j - 1)

/-- `Analysis._set_stiffness`. -/
def setS (m : QMat) (i j : ℕ) (x : ℚ) : QMat :=
  m.set (i - 1) (j - 1) x

/-- `Analysis._increment_stiffness`. -/
def incS (m : QMat) (i j : ℕ) (x : ℚ) : QMat :=
  setS m i j (getS m i j + x)

/-- `Analysis._decrement_stiffness`. -/
def decS (m : QMat) (i j : ℕ) (x : ℚ) : QMat :=
  setS m i j (getS m i j - x)

/-- `Analysis._divide_stiffness`. -/
def divS (m : QMat) (i j : ℕ) (x : ℚ) : QMat :=
  setS m i j (getS m i j / x)

/-- The mutable state of one `Analysis` run. -/
structure AnalysisState where
  error : AnalysisError
  x_restraints : ℕ → Bool
  y_restraints : ℕ → Bool
  n_equations : ℕ
  stiffness : QMat
  displacement : QMat
  member_force : QMat
  member_strength : ℕ → MemberStrength
  max_forces : ℕ → MaxForces
  n_compressive_failures : ℕ
  n_tensile_failures : ℕ

/-- `Analysis.__init__`. -/
def Analysis.init (b : Bridge) : AnalysisState where
  error := AnalysisError.NoAnalysisError
  x_restraints := fun _ => false
  y_restraints := fun _ => false
  n_equations := b.n_joints * 2
  stiffness := QMat.zero
  displacement := QMat.zero
  member_force := QMat.zero
  member_strength := fun _ => ⟨0, 0, FailModeNone, FailModeNone⟩
  max_forces := fun _ => ⟨0, 0⟩
  n_compressive_failures := 0
  n_tensile_failures := 0

/-- `Analysis._apply_restraints`. -/
def Analysis._apply_restraints (b : Bridge) (st : AnalysisState) : AnalysisState :=
  let n_loaded_joints := b.load_scenario.n_loaded_joints
  -- Assume simple support
  let xr := updF st.x_restraints 1 true
  let yr := updF st.y_restraints 1 true
  let yr := updF yr n_loaded_joints true
  let joint_index := n_loaded_joints + 1
  let support_type := b.load_scenario.support_type
  -- Adjust for intermediate support
  let next :=
    if support_type = INTERMEDIATE_SUPPORT then
      if b.load_scenario.support_type = HIGH_PIER then
        let intermed_joint_num := b.load_scenario.intermediate_support_joint_no
        (updF (updF xr intermed_joint_num true) 1 false,
         updF yr intermed_joint_num true, joint_index)
      else
        (updF xr joint_index true, updF yr joint_index true, joint_index + 1)
    else (xr, yr, joint_index)
  let xr := next.1
  let yr := next.2.1
  let joint_index := next.2.2
  -- Adjust for arches
  let next :=
    if support_type = ARCH_SUPPORT then
      let xr := updF (updF xr joint_index true) (joint_index + 1) true
      let yr := updF (updF yr joint_index true) (joint_index + 1) true
      -- Undo simple support
      let xr := updF xr 1 false
      let yr := updF yr 1 false
      let yr := updF yr n_loaded_joints false
      (xr, yr, joint_index + 2)
    else (xr, yr, joint_index)
  let xr := next.1
  let yr := next.2.1
  let joint_index := next.2.2
  -- Adjust for cable supports
  let next :=
    if support_type = CABLE_SUPPORT_LEFT ∨ support_type = CABLE_SUPPORT_BOTH then
      (updF xr joint_index true, updF yr joint_index true, joint_index + 1)
    else (xr, yr, joint_index)
  let xr := next.1
  let yr := next.2.1
  let joint_index := next.2.2
  let next :=
    if support_type = CABLE_SUPPORT_BOTH then
      (updF xr joint_index true, updF yr joint_index true)
    else (xr, yr)
  { st with x_restraints := next.1, y_restraints := next.2 }

/-- The sixteen stiffness increments one member contributes
(`Analysis._apply_initial_stiffness` loop body). -/
def memberStamp (p : Params) (K : QMat) (member : Member) : QMat :=
  let j1 := member.start_joint.number
  let j2 := member.end_joint.number
  let xs := member.cross_section
  let ae_over_l := (shapeOf p xs.sectionIdx xs.size).area * xs.material.E / member.length
  let xx := ae_over_l * _square member.cos_x
  let yy := ae_over_l * _square member.cos_y
  let xy := ae_over_l * member.cos_x * member.cos_y
  let j12m1 := 2 * j1 - 1
  let j12 := 2 * j1
  let j22m1 := 2 * j2 - 1
  let j22 := 2 * j2
  let K := incS K j12m1 j12m1 xx
  let K := incS K j12m1 j12 xy
  let K := decS K j12m1 j22m1 xx
  let K := decS K j12m1 j22 xy
  let K := incS K j12 j12m1 xy
  let K := incS K j12 j12 yy
  let K := decS K j12 j22m1 xy
  let K := decS K j12 j22 yy
  let K := decS K j22m1 j12m1 xx
  let K := decS K j22m1 j12 xy
  let K := incS K j22m1 j22m1 xx
  let K := incS K j22m1 j22 xy
  let K := decS K j22 j12m1 xy
  let K := decS K j22 j12 yy
  let K := incS K j22 j22m1 xy
  incS K j22 j22 yy

/-- `Analysis._apply_initial_stiffness`. -/
def Analysis._apply_initial_stiffness (b : Bridge) (st : AnalysisState) : AnalysisState :=
  { st with stiffness := b.members.foldl (memberStamp b.parameters) st.stiffness }

/-- Zero row `r` and column `r` of the stiffness matrix
(the inner `for j in range(1, n_equations + 1)` loop). -/
def zeroRowCol (n_eq : ℕ) (K : QMat) (r : ℕ) : QMat :=
  (List.range' 1 n_eq).foldl (fun K j => setS (setS K r j 0) j r 0) K

/-- Restrain one joint against one load vector
(`Analysis._apply_support_restraints` inner loop body). -/
def restrainJoint (xr yr : ℕ → Bool) (n_eq : ℕ)
    (p : QMat × (ℕ → ℚ)) (joint_index : ℕ) : QMat × (ℕ → ℚ) :=
  let p :=
    if xr joint_index then
      let i2m1 := 2 * joint_index - 1
      let K := zeroRowCol n_eq p.1 i2m1
      let K := setS K i2m1 i2m1 1
      (K, upd1 p.2 i2m1 0)
    else p
  if yr joint_index then
    let i2 := 2 * joint_index
    let K := zeroRowCol n_eq p.1 i2
    let K := setS K i2 i2 1
    (K, upd1 p.2 i2 0)
  else p

/-- `Analysis._apply_support_restraints`: the outer loop runs once per
load-instance vector (Python iterates the `n_load_instances + 1`-element
list), re-stamping the stiffness matrix each time and zeroing the
restrained entries of that vector. -/
def Analysis._apply_support_restraints (b : Bridge) (st : AnalysisState)
    (ld : BridgeLoads) : AnalysisState × BridgeLoads :=
  let res := (List.range (ld.n_load_instances + 1)).foldl
    (fun (acc : QMat × (ℕ → ℕ → ℚ)) i =>
      let out := (List.range' 1 b.n_joints).foldl
        (restrainJoint st.x_restraints st.y_restraints st.n_equations) (acc.1, acc.2 i)
      (out.1, fun i' j' => if i' = i then out.2 j' else acc.2 i' j'))
    (st.stiffness, ld.load_instances)
  ({ st with stiffness := res.1 }, { ld with load_instances := res.2 })

/-- Divide pivot row `e` by the pivot (`Analysis._invert`, first inner loop). -/
def elimRowDivide (n : ℕ) (pivot : ℚ) (A : QMat) (e : ℕ) : QMat :=
  (List.range' 1 n).foldl (fun A k => divS A e k pivot) A

/-- Eliminate column `e` from row `k` (`Analysis._invert`, second inner
loop body). -/
def elimOtherRow (n : ℕ) (pivr : ℚ) (e : ℕ) (A : QMat) (k : ℕ) : QMat :=
  if k ≠ e then
    let pivot := getS A k e
    let A := (List.range' 1 n).foldl (fun A j => decS A k j (getS A e j * pivot)) A
    setS A k e (-pivot * pivr)
  else A

/-- One full pass of `Analysis._invert` for equation index `e` (after the
pivot check has succeeded). -/
def elimStep (n : ℕ) (A : QMat) (e : ℕ) : QMat :=
  let pivot := getS A e e
  let pivr := 1 / pivot
  let A := elimRowDivide n pivot A e
  let A := (List.range' 1 n).foldl (elimOtherRow n pivr e) A
  setS A e e pivr

/-- `Analysis._invert`, structured over the remaining equation indices:
`none` models `return False` with `error = AnalysisBadPivot`. -/
def invertLoop (n : ℕ) : QMat → List ℕ → Option QMat
  | A, [] => some A
  | A, e :: rest =>
    if |getS A e e| < 0.99 then none
    else invertLoop n (elimStep n A e) rest

/-- `Analysis._invert` over equation indices `1..n`. -/
def invert (n : ℕ) (A : QMat) : Option QMat :=
  invertLoop n A (List.range' 1 n)

/-- `Analysis._compute_end_forces` for one load instance. -/
def Analysis._compute_end_forces (b : Bridge) (st : AnalysisState)
    (load_instance_index : ℕ) : AnalysisState :=
  { st with
    member_force := b.members.foldl
      (fun F member =>
        let xs := member.cross_section
        let ae_over_l := (shapeOf b.parameters xs.sectionIdx xs.size).area *
          xs.material.E / member.length
        let j1 := member.start_joint.number
        let j2 := member.end_joint.number
        let end_force := ae_over_l *
          (member.cos_x * (getS st.displacement (2 * j2 - 1) load_instance_index -
              getS st.displacement (2 * j1 - 1) load_instance_index) +
           member.cos_y * (getS st.displacement (2 * j2) load_instance_index -
              getS st.displacement (2 * j1) load_instance_index))
        setS F member.number load_instance_index end_force)
      st.member_force }

/-- `Analysis._compute_joint_displacements` (with the per-instance call
to `_compute_end_forces`, as in the source). -/
def Analysis._compute_joint_displacements (b : Bridge) (ld : BridgeLoads)
    (st : AnalysisState) : AnalysisState :=
  (List.range' 1 ld.n_load_instances).foldl
    (fun st load_instance_index =>
      let st := { st with
        displacement := (List.range' 1 st.n_equations).foldl
          (fun D i =>
            let temp := ((List.range' 1 st.n_equations).map
              (fun j => getS st.stiffness i j * ld.load_instances load_instance_index j)).sum
            setS D i load_instance_index temp)
          st.displacement }
      Analysis._compute_end_forces b st load_instance_index)
    st

/-- The loop body of `Analysis._compute_member_strengths` for one
member; `fpow` models the float library `pow` used for `0.66 ** lam`,
and `9.8696044` is the source's decimal constant for pi squared. -/
def memberStrengthOf (b : Bridge) (fpow : ℚ → ℚ → ℚ) (member : Member) :
    MemberStrength :=
  let xs := member.cross_section
  let Fy := xs.material.Fy
  let params := b.parameters
  let area := (shapeOf params xs.sectionIdx xs.size).area
  let moment := (shapeOf params xs.sectionIdx xs.size).moment
  let radius_of_gyration := if area > 0 then Rat.sqrt (moment / area) else 0
  let slenderness :=
    if radius_of_gyration > 0 then member.length / radius_of_gyration else 0
  let support_type := b.load_scenario.support_type
  if support_type = CABLE_SUPPORT_LEFT ∨ support_type = CABLE_SUPPORT_BOTH ∨
      slenderness < params.slenderness_limit then
    let lam := _square member.length * Fy * area /
      (9.8696044 * xs.material.E * moment)
    if lam ≤ 2.25 then
      ⟨params.compression_resistance_factor * fpow 0.66 lam * Fy * area,
       params.tension_resistance_factor * Fy * area,
       FailModeYields, FailModeYields⟩
    else
      ⟨params.compression_resistance_factor * 0.88 * Fy * area / lam,
       params.tension_resistance_factor * Fy * area,
       FailModeBuckles, FailModeYields⟩
  else
    ⟨0, 0, FailModeSlenderness, FailModeSlenderness⟩

/-- `Analysis._compute_member_strengths`. -/
def Analysis._compute_member_strengths (b : Bridge) (fpow : ℚ → ℚ → ℚ)
    (st : AnalysisState) : AnalysisState :=
  { st with
    member_strength := b.members.foldl
      (fun MS member => updF MS member.number (memberStrengthOf b fpow member))
      st.member_strength }

/-- The inner load-instance fold of `Analysis._summarize_results`:
accumulates (max compression, max tension) for one member. -/
def maxForcesFold (F : QMat) (n_load_instances mnum : ℕ) : ℚ × ℚ :=
  (List.range' 1 n_load_instances).foldl
    (fun (p : ℚ × ℚ) load_instance_index =>
      let member_force := getS F mnum load_instance_index
      if member_force < 0 then (_fold_max p.1 (-member_force), p.2)
      else (p.1, _fold_max p.2 member_force))
    (0, 0)

/-- The loop body of `Analysis._summarize_results` for one member. -/
def summarizeStep (ld : BridgeLoads) (st : AnalysisState) (member : Member) :
    AnalysisState :=
  let mm := maxForcesFold st.member_force ld.n_load_instances member.number
  let max_compression := mm.1
  let max_tension := mm.2
  let st := { st with
    max_forces := updF st.max_forces member.number ⟨max_compression, max_tension⟩ }
  let ms := st.member_strength member.number
  let clearComp :=
    updF st.member_strength member.number
      ({ st.member_strength member.number with compressive_fail_mode := FailModeNone })
  let st :=
    if ms.compressive_fail_mode ≠ FailModeSlenderness ∧ max_compression < ms.compressive
    then { st with member_strength := clearComp }
    else { st with n_compressive_failures := st.n_compressive_failures + 1 }
  let clearTens :=
    updF st.member_strength member.number
      ({ st.member_strength member.number with tensile_fail_mode := FailModeNone })
  if ms.tensile_fail_mode ≠ FailModeSlenderness ∧ max_tension < ms.tensile
  then { st with member_strength := clearTens }
  else { st with n_tensile_failures := st.n_tensile_failures + 1 }

/-- `Analysis._summarize_results`. -/
def Analysis._summarize_results (b : Bridge) (ld : BridgeLoads)
    (st : AnalysisState) : AnalysisState :=
  b.members.foldl (summarizeStep ld) st

/-- `Analysis.get_results`. -/
def Analysis.get_results (b : Bridge) (ld : BridgeLoads) (fpow : ℚ → ℚ → ℚ) :
    Bool × ℤ :=
  let cost := calculate_cost b
  let st := Analysis.init b
  let st := Analysis._apply_restraints b st
  let st := Analysis._apply_initial_stiffness b st
  let p := Analysis._apply_support_restraints b st ld
  let st := p.1
  let ld := p.2
  match invert st.n_equations st.stiffness with
  | none => (false, cost)
  | some K =>
    let st := { st with stiffness := K }
    let st := Analysis._compute_joint_displacements b ld st
    let st := Analysis._compute_member_strengths b fpow st
    let st := Analysis._summarize_results b ld st
    if st.error ≠ AnalysisError.NoAnalysisError ∨
        st.n_compressive_failures > 0 ∨ st.n_tensile_failures > 0
    then (false, cost)
    else (true, cost)

/-- `Bridge.analyze` from bridge.py. -/
def Bridge.analyze (b : Bridge) (fpow : ℚ → ℚ → ℚ) : Bool × ℤ :=
  if b.n_members = 0 then (false, 0)
  else Analysis.get_results b b._apply_loads fpow

/-! ## Basic lemmas about the state representation -/

theorem QMat.get_set (m : QMat) (i j i' j' : ℕ) (x : ℚ) :
    (m.set i j x).get i' j' = if i = i' ∧ j = j' then x else m.get i' j' := rfl

theorem getS_setS (m : QMat) (i j i' j' : ℕ) (x : ℚ) (hi : 1 ≤ i) (hi' : 1 ≤ i')
    (hj : 1 ≤ j) (hj' : 1 ≤ j') :
    getS (setS m i j x) i' j' = if i = i' ∧ j = j' then x else getS m i' j' := by
  show (m.set (i - 1) (j - 1) x).get (i' - 1) (j' - 1) = _
  rw [QMat.get_set]
  by_cases h : i = i' ∧ j = j'
  · rw [if_pos (by omega), if_pos h]
  · rw [if_neg (by omega), if_neg h]; rfl

theorem updF_apply {α : Type} (v : ℕ → α) (i i' : ℕ) (x : α) :
    updF v i x i' = if i' = i then x else v i' := rfl

/-! ## Concrete scenario descriptors used by witnesses and counterexamples.

The ten digits are the scenario id read by `LoadScenario.__init__`:
(load case, panels, panels, over, over, under, under, support kind,
pier panel point, high-not-low). -/

/-- 1 panel, simple support, load case A, site cost 100000. -/
def descC8 : ScenarioDescriptor := ⟨[1, 0, 1, 0, 0, 0, 0, 0, 0, 0], 100000⟩

/-- 4 panels, 5 m under, low pier at panel point 3, load case A. -/
def descC3 : ScenarioDescriptor := ⟨[1, 0, 4, 0, 0, 0, 5, 0, 3, 0], 0⟩

def bridgeC3 : Bridge := Bridge.init descC3

/-! ## Claim C8 -/

/-- Claim C8 (amended): for every bridge with zero members, `analyze`
short-circuits without running the solver and returns an invalid result
with cost exactly `0` — not the scenario site cost contribution. -/
theorem c8_zero_members_analyze (b : Bridge) (fpow : ℚ → ℚ → ℚ)
    (h : b.n_members = 0) : b.analyze fpow = (false, 0) := by
  unfold Bridge.analyze
  rw [if_pos h]

/-- Witness for C8: the fresh one-panel bridge has zero members and
analyzes to `(false, 0)`. -/
theorem c8_zero_members_analyze_witness :
    (Bridge.init descC8).n_members = 0 ∧
      (Bridge.init descC8).analyze (fun _ _ => 0) = (false, 0) :=
  ⟨rfl, c8_zero_members_analyze (Bridge.init descC8) (fun _ _ => 0) rfl⟩

/-- Counterexample for C8: on the fresh one-panel bridge whose scenario
site cost is 100000, the claim predicts `analyze` returns the site-cost
contribution (100000) as the cost; the code returns cost 0. -/
theorem c8_counterexample :
    ¬ ((Bridge.init descC8).analyze (fun _ _ => 0) = (false, 100000)) := by
  have h : (Bridge.init descC8).analyze (fun _ _ => 0) = (false, 0) := by
    unfold Bridge.analyze
    rw [if_pos (show (Bridge.init descC8).n_members = 0 from rfl)]
  rw [h]
  simp

/-! ## Claim C3 -/

/-- Claim C3 (amended): for every bridge whose scenario has an
intermediate pier support (low or high alike — the code's high-pier test
compares `support_type`, which is `INTERMEDIATE_SUPPORT` here, against
`HIGH_PIER`, so it can never fire), the restraint deriver produces
exactly the simple-support restraints (x and y at joint 1, y at the last
loaded joint) plus both directions of the prescribed pier joint — the
joint following the last loaded joint; in particular the x restraint at
joint 1 remains fixed even for a low pier. -/
theorem c3_pier_restraints (b : Bridge)
    (h : b.load_scenario.support_type = INTERMEDIATE_SUPPORT) :
    ∀ k, ((Analysis._apply_restraints b (Analysis.init b)).x_restraints k = true ↔
        (k = 1 ∨ k = b.load_scenario.n_loaded_joints + 1)) ∧
      ((Analysis._apply_restraints b (Analysis.init b)).y_restraints k = true ↔
        (k = 1 ∨ k = b.load_scenario.n_loaded_joints ∨
          k = b.load_scenario.n_loaded_joints + 1)) := by
  intro k
  simp only [Analysis._apply_restraints, Analysis.init, h, INTERMEDIATE_SUPPORT,
    HIGH_PIER, ARCH_SUPPORT, CABLE_SUPPORT_LEFT, CABLE_SUPPORT_BOTH, updF_apply]
  norm_num
  constructor
  · by_cases h1 : k = 1 <;> by_cases h2 : k = b.load_scenario.n_loaded_joints + 1 <;>
      simp [updF_apply, h1, h2]
  · by_cases h1 : k = 1 <;> by_cases h2 : k = b.load_scenario.n_loaded_joints <;>
      by_cases h3 : k = b.load_scenario.n_loaded_joints + 1 <;>
      simp [updF_apply, h1, h2, h3]

/-- Witness for C3: the low-pier scenario `descC3` (pier joint is joint
6 = `n_loaded_joints + 1`), instantiated at joint 1. -/
theorem c3_pier_restraints_witness :
    (((Analysis._apply_restraints bridgeC3 (Analysis.init bridgeC3)).x_restraints 1 = true ↔
        (1 = 1 ∨ 1 = bridgeC3.load_scenario.n_loaded_joints + 1)) ∧
      ((Analysis._apply_restraints bridgeC3 (Analysis.init bridgeC3)).y_restraints 1 = true ↔
        (1 = 1 ∨ 1 = bridgeC3.load_scenario.n_loaded_joints ∨
          1 = bridgeC3.load_scenario.n_loaded_joints + 1))) :=
  c3_pier_restraints bridgeC3 (by decide) 1

/-- Counterexample for C3: on the concrete low-pier scenario `descC3`
the claim says the deriver un-fixes the x restraint at joint 1 (i.e.
leaves it `false`); the code leaves it fixed (`true`). -/
theorem c3_counterexample :
    ¬ ((Analysis._apply_restraints bridgeC3 (Analysis.init bridgeC3)).x_restraints 1
        = false) := by
  decide

/-! ## Reading back a keyed fold of functional updates -/

theorem foldl_updF_apply_notmem {α β : Type} (key : β → ℕ) (f : β → α)
    (l : List β) : ∀ (init : ℕ → α) (k : ℕ), k ∉ l.map key →
    (l.foldl (fun acc m => updF acc (key m) (f m)) init) k = init k := by
  induction l with
  | nil => intro init k _; rfl
  | cons a t ih =>
    intro init k hk
    simp only [List.map_cons, List.mem_cons, not_or] at hk
    simp only [List.foldl_cons]
    rw [ih _ k hk.2, updF_apply, if_neg hk.1]

theorem foldl_updF_apply_mem {α β : Type} (key : β → ℕ) (f : β → α)
    (l : List β) : ∀ (init : ℕ → α) (m : β), m ∈ l → (l.map key).Nodup →
    (l.foldl (fun acc m' => updF acc (key m') (f m')) init) (key m) = f m := by
  induction l with
  | nil => intro _ _ hm _; cases hm
  | cons a t ih =>
    intro init m hm hn
    simp only [List.map_cons, List.nodup_cons] at hn
    simp only [List.foldl_cons]
    rcases List.mem_cons.mp hm with rfl | hmt
    · rw [foldl_updF_apply_notmem key f t _ (key m) hn.1, updF_apply, if_pos rfl]
    · exact ih _ m hmt hn.2

/-! ## Claim C7 -/

/-- The slenderness ratio of a member as the spec defines it: length
divided by the radius of gyration `sqrt(moment / area)`, `0` when a
guard denominator is `0`. -/
def slendernessOf (p : Params) (member : Member) : ℚ :=
  let area := (shapeOf p member.cross_section.sectionIdx member.cross_section.size).area
  let moment := (shapeOf p member.cross_section.sectionIdx member.cross_section.size).moment
  let radius_of_gyration := if area > 0 then Rat.sqrt (moment / area) else 0
  if radius_of_gyration > 0 then member.length / radius_of_gyration else 0

/-- The buckling parameter `lambda = length² · Fy · area / (pi² · E · moment)`
of the claim, with pi² given by the source's constant `9.8696044`. -/
def lambdaOf (p : Params) (member : Member) : ℚ :=
  let area := (shapeOf p member.cross_section.sectionIdx member.cross_section.size).area
  let moment := (shapeOf p member.cross_section.sectionIdx member.cross_section.size).moment
  _square member.length * member.cross_section.material.Fy * area /
    (9.8696044 * member.cross_section.material.E * moment)

/-- Claim C7: for every member of a bridge whose scenario has a cable
support or whose slenderness ratio is below the limit 300: if
`lambda ≤ 2.25` the compressive fail mode is yields with capacity
`0.90 · 0.66^lambda · Fy · area`, otherwise buckles with capacity
`0.90 · 0.88 · Fy · area / lambda`, and the tensile mode is yields with
capacity `0.95 · Fy · area`; every other member gets fail mode
slenderness and capacity exactly 0 on both sides.  (`pi²` of the claim
is the source's decimal constant `9.8696044`; `0.66^lambda`, a float
`pow`, is the opaque parameter `fpow` applied at `(0.66, lambda)`.) -/
theorem c7_member_strengths (b : Bridge) (fpow : ℚ → ℚ → ℚ) (st : AnalysisState)
    (member : Member) (hmem : member ∈ b.members)
    (hnodup : (b.members.map Member.number).Nodup)
    (hp : b.parameters = Params.init) :
    ((Analysis._compute_member_strengths b fpow st).member_strength member.number =
        memberStrengthOf b fpow member) ∧
    ((b.load_scenario.support_type = CABLE_SUPPORT_LEFT ∨
        b.load_scenario.support_type = CABLE_SUPPORT_BOTH ∨
        slendernessOf Params.init member < 300) →
      memberStrengthOf b fpow member =
        (let area := (shapeOf Params.init member.cross_section.sectionIdx
            member.cross_section.size).area
         let Fy := member.cross_section.material.Fy
         let lam := lambdaOf Params.init member
         if lam ≤ 2.25 then
           ⟨0.90 * fpow 0.66 lam * Fy * area, 0.95 * Fy * area,
            FailModeYields, FailModeYields⟩
         else
           ⟨0.90 * 0.88 * Fy * area / lam, 0.95 * Fy * area,
            FailModeBuckles, FailModeYields⟩)) ∧
    (¬ (b.load_scenario.support_type = CABLE_SUPPORT_LEFT ∨
        b.load_scenario.support_type = CABLE_SUPPORT_BOTH ∨
        slendernessOf Params.init member < 300) →
      memberStrengthOf b fpow member =
        ⟨0, 0, FailModeSlenderness, FailModeSlenderness⟩) := by
  refine ⟨?_, ?_, ?_⟩
  · unfold Analysis._compute_member_strengths
    exact foldl_updF_apply_mem Member.number (memberStrengthOf b fpow) b.members
      st.member_strength member hmem hnodup
  · intro hq
    unfold memberStrengthOf
    rw [hp]
    rw [if_pos (by simpa [slendernessOf, Params.init] using hq)]
    simp only [lambdaOf, Params.init]
  · intro hq
    unfold memberStrengthOf
    rw [hp]
    rw [if_neg (by simpa [slendernessOf, Params.init] using hq)]

/-- 1 panel, simple support, load case A: host scenario for the C7
witness member. -/
def descC7 : ScenarioDescriptor := ⟨[1, 0, 1, 0, 0, 0, 0, 0, 0, 0], 0⟩

/-- One 4 m bar member of size 32 between the two deck joints. -/
def bridgeC7 : Bridge := ((Bridge.init descC7).add_member 0 96 16 96 0 0 32).2

def memberC7 : Member := bridgeC7.members.headD default

/-- Witness for C7: the concrete one-member bridge, with the
hypotheses checked and the strength read-back instantiated. -/
theorem c7_member_strengths_witness :
    (memberC7 ∈ bridgeC7.members ∧ (bridgeC7.members.map Member.number).Nodup ∧
      bridgeC7.parameters = Params.init) ∧
    (Analysis._compute_member_strengths bridgeC7 (fun _ _ => 1)
        (Analysis.init bridgeC7)).member_strength memberC7.number =
      memberStrengthOf bridgeC7 (fun _ _ => 1) memberC7 :=
  have hmem : memberC7 ∈ bridgeC7.members := by
    show memberC7 ∈ [memberC7]
    exact List.mem_singleton_self memberC7
  ⟨⟨hmem, by decide, rfl⟩,
   (c7_member_strengths bridgeC7 (fun _ _ => 1) (Analysis.init bridgeC7) memberC7
      hmem (by decide) rfl).1⟩

/-! ## Claim C5 -/

theorem deadStep_ne (lc : LoadCase) (n : ℕ) (f : ℕ → ℕ → ℚ) (joint : Joint)
    (i j' : ℕ) (h : j' ≠ 2 * joint.number) :
    deadStep lc n f joint i j' = f i j' := by
  unfold deadStep decAll
  rw [if_neg h]

theorem foldl_deadStep_not_mem (lc : LoadCase) (n : ℕ) (l : List Joint) :
    ∀ (f : ℕ → ℕ → ℚ) (i j' : ℕ), (∀ jt ∈ l, j' ≠ 2 * jt.number) →
      (l.foldl (deadStep lc n) f) i j' = f i j' := by
  induction l with
  | nil => intro f i j' _; rfl
  | cons a t ih =>
    intro f i j' hj
    simp only [List.foldl_cons]
    rw [ih _ i j' (fun jt hjt => hj jt (List.mem_cons_of_mem a hjt)),
      deadStep_ne lc n f a i j' (hj a (List.mem_cons_self a t))]

theorem deadStep_congr (lc : LoadCase) (n : ℕ) (f g : ℕ → ℕ → ℚ)
    (joint : Joint) (i j' : ℕ) (h : f i j' = g i j') :
    deadStep lc n f joint i j' = deadStep lc n g joint i j' := by
  unfold deadStep decAll
  split_ifs <;> rw [h]

theorem foldl_deadStep_mem (lc : LoadCase) (n : ℕ) (l : List Joint) :
    ∀ (f : ℕ → ℕ → ℚ) (jt : Joint), jt ∈ l → (l.map Joint.number).Nodup →
      ∀ i, (l.foldl (deadStep lc n) f) i (2 * jt.number) =
        deadStep lc n f jt i (2 * jt.number) := by
  induction l with
  | nil => intro _ _ hm _ _; cases hm
  | cons a t ih =>
    intro f jt hm hn i
    simp only [List.map_cons, List.nodup_cons] at hn
    simp only [List.foldl_cons]
    rcases List.mem_cons.mp hm with rfl | hmt
    · refine foldl_deadStep_not_mem lc n t _ i (2 * jt.number) ?_
      intro j' hj' hc
      exact hn.1 (List.mem_map.mpr ⟨j', hj', by omega⟩)
    · rw [ih _ jt hmt hn.2 i]
      have hne : (2 : ℕ) * jt.number ≠ 2 * a.number := by
        intro hc
        exact hn.1 (List.mem_map.mpr ⟨jt, hmt, by omega⟩)
      exact deadStep_congr lc n _ f jt i _
        (deadStep_ne lc n f a i (2 * jt.number) hne)

/-- Claim C5 is contradicted by the code: `_apply_dead_load` subtracts
the point dead load of the selected load case at the vertical DOF of
EVERY joint of the bridge (halved only when the joint number is 1 or
`n_loaded_joints`), pier, arch-base, anchorage and user-added joints
included — not only at the deck joints as the claim states. -/
theorem c5_dead_load_every_joint (b : Bridge) (ld : BridgeLoads) (jt : Joint)
    (hjt : jt ∈ b.joints) (hnodup : (b.joints.map Joint.number).Nodup) (i : ℕ) :
    (b._apply_dead_load ld).load_instances i (2 * jt.number) =
      ld.load_instances i (2 * jt.number) -
        (if jt.number = 1 ∨ jt.number = b.load_scenario.n_loaded_joints
         then (pyGetD b.parameters.load_cases b.load_scenario.load_case
            default).point_dead_load / 2
         else (pyGetD b.parameters.load_cases b.load_scenario.load_case
            default).point_dead_load) := by
  show (b.joints.foldl (deadStep _ _) ld.load_instances) i (2 * jt.number) = _
  rw [foldl_deadStep_mem _ _ b.joints ld.load_instances jt hjt hnodup i]
  unfold deadStep decAll
  rw [if_pos rfl]

/-- 1 panel, 5 m under span, low pier at panel point 1, load case A:
the prescribed joints are the two deck joints and the pier joint
`⟨3, 0, -20⟩` below the deck. -/
def descC5 : ScenarioDescriptor := ⟨[1, 0, 1, 0, 0, 0, 5, 0, 1, 0], 0⟩

/-- Witness for C5: the pier joint `⟨3, 0, -20⟩` of the `descC5`
bridge is not a deck joint (`n_loaded_joints = 2`), yet its vertical
DOF entry 6 receives the full point dead load. -/
theorem c5_dead_load_every_joint_witness :
    ((⟨3, 0, -20⟩ : Joint) ∈ (Bridge.init descC5).joints ∧
      ((Bridge.init descC5).joints.map Joint.number).Nodup ∧
      (Bridge.init descC5).load_scenario.n_loaded_joints = 2) ∧
    ((Bridge.init descC5)._apply_dead_load (Bridge.init descC5)._setup_load_instances).load_instances
        1 (2 * (⟨3, 0, -20⟩ : Joint).number) =
      (Bridge.init descC5)._setup_load_instances.load_instances
          1 (2 * (⟨3, 0, -20⟩ : Joint).number) -
        (if (⟨3, 0, -20⟩ : Joint).number = 1 ∨
            (⟨3, 0, -20⟩ : Joint).number = (Bridge.init descC5).load_scenario.n_loaded_joints
         then (pyGetD (Bridge.init descC5).parameters.load_cases
            (Bridge.init descC5).load_scenario.load_case default).point_dead_load / 2
         else (pyGetD (Bridge.init descC5).parameters.load_cases
            (Bridge.init descC5).load_scenario.load_case default).point_dead_load) :=
  ⟨⟨by decide, by decide, rfl⟩,
   c5_dead_load_every_joint (Bridge.init descC5)
     (Bridge.init descC5)._setup_load_instances ⟨3, 0, -20⟩ (by decide) (by decide) 1⟩

/-! ## Claim C4 -/

/-- The loads after self-weight and dead load but before the live-load
step (`_setup_load_instances`, `_apply_self_weights`,
`_apply_dead_load`, in `_apply_loads` order). -/
def deadSelfLoads (b : Bridge) : BridgeLoads :=
  b._apply_dead_load (b._apply_self_weights b._setup_load_instances)

theorem liveStep_ne (f : ℕ → ℕ → ℚ) (i : ℕ) (front rear : ℚ) (i' j' : ℕ)
    (h : i' ≠ i) : liveStep f i front rear i' j' = f i' j' := by
  unfold liveStep decOne
  rw [if_neg (fun hc => h hc.1), if_neg (fun hc => h hc.1)]

theorem foldl_liveStep_not_mem (front rear : ℚ) (l : List ℕ) :
    ∀ (f : ℕ → ℕ → ℚ) (i' : ℕ), i' ∉ l → ∀ j',
      (l.foldl (fun f i => liveStep f i front rear) f) i' j' = f i' j' := by
  induction l with
  | nil => intro f i' _ j'; rfl
  | cons a t ih =>
    intro f i' hi' j'
    simp only [List.mem_cons, not_or] at hi'
    simp only [List.foldl_cons]
    rw [ih _ i' hi'.2 j', liveStep_ne f a front rear i' j' hi'.1]

theorem liveStep_congr (f g : ℕ → ℕ → ℚ) (i : ℕ) (front rear : ℚ) (i' j' : ℕ)
    (h : f i' j' = g i' j') :
    liveStep f i front rear i' j' = liveStep g i front rear i' j' := by
  unfold liveStep decOne
  split_ifs <;> rw [h]

theorem foldl_liveStep_mem (front rear : ℚ) (l : List ℕ) :
    ∀ (f : ℕ → ℕ → ℚ) (i : ℕ), i ∈ l → l.Nodup → ∀ j',
      (l.foldl (fun f i => liveStep f i front rear) f) i j' =
        liveStep f i front rear i j' := by
  induction l with
  | nil => intro _ _ hm _ _; cases hm
  | cons a t ih =>
    intro f i hm hn j'
    simp only [List.nodup_cons] at hn
    simp only [List.foldl_cons]
    rcases List.mem_cons.mp hm with rfl | hmt
    · exact foldl_liveStep_not_mem front rear t _ i hn.1 j'
    · rw [ih _ i hmt hn.2 j']
      have hne : i ≠ a := fun hc => hn.1 (hc ▸ hmt)
      exact liveStep_congr _ f i front rear i j'
        (liveStep_ne f a front rear i j' hne)

/-- Claim C4 (amended): the load assembler builds exactly
`n_loaded_joints + 1` load instances; instance 1 and the final instance
`n_loaded_joints + 1` carry only self-weight and dead load (no axle
loads — the Python loop `range(2, n_load_instances)` excludes its upper
bound, so the live load is stepped across instances
`2 .. n_loaded_joints` only, front axle at the vertical DOF of deck
joint `i` and rear axle at the vertical DOF of deck joint `i - 1`). -/
theorem c4_live_load_instances (b : Bridge) :
    b._apply_loads.n_load_instances = b.load_scenario.n_loaded_joints + 1 ∧
    (∀ j, b._apply_loads.load_instances 1 j = (deadSelfLoads b).load_instances 1 j) ∧
    (∀ j, b._apply_loads.load_instances (b.load_scenario.n_loaded_joints + 1) j =
      (deadSelfLoads b).load_instances (b.load_scenario.n_loaded_joints + 1) j) ∧
    (∀ i, 2 ≤ i → i ≤ b.load_scenario.n_loaded_joints →
      (b._apply_loads.load_instances i (2 * i) =
        (deadSelfLoads b).load_instances i (2 * i) -
          b.parameters.live_load_factor *
            (pyGetD b.parameters.load_cases b.load_scenario.load_case
              default).front_axle_load) ∧
      (b._apply_loads.load_instances i (2 * i - 2) =
        (deadSelfLoads b).load_instances i (2 * i - 2) -
          b.parameters.live_load_factor *
            (pyGetD b.parameters.load_cases b.load_scenario.load_case
              default).rear_axle_load) ∧
      (∀ j, j ≠ 2 * i → j ≠ 2 * i - 2 →
        b._apply_loads.load_instances i j =
          (deadSelfLoads b).load_instances i j)) := by
  have hn : (deadSelfLoads b).n_load_instances = b.load_scenario.n_loaded_joints + 1 := rfl
  have happ : b._apply_loads = b._apply_live_load (deadSelfLoads b) := rfl
  have hlist : (deadSelfLoads b).n_load_instances - 2 =
      b.load_scenario.n_loaded_joints - 1 := by omega
  refine ⟨rfl, ?_, ?_, ?_⟩
  · intro j
    rw [happ]
    show ((List.range' 2 ((deadSelfLoads b).n_load_instances - 2)).foldl
      (fun f i => liveStep f i _ _) (deadSelfLoads b).load_instances) 1 j = _
    rw [foldl_liveStep_not_mem]
    rw [List.mem_range'_1]
    omega
  · intro j
    rw [happ]
    show ((List.range' 2 ((deadSelfLoads b).n_load_instances - 2)).foldl
      (fun f i => liveStep f i _ _) (deadSelfLoads b).load_instances)
        (b.load_scenario.n_loaded_joints + 1) j = _
    rw [foldl_liveStep_not_mem]
    rw [List.mem_range'_1, hlist]
    omega
  · intro i h2 hle
    have hmem : i ∈ List.range' 2 ((deadSelfLoads b).n_load_instances - 2) := by
      rw [List.mem_range'_1, hlist]
      omega
    have hrw : ∀ j', b._apply_loads.load_instances i j' =
        liveStep (deadSelfLoads b).load_instances i
          (b.parameters.live_load_factor *
            (pyGetD b.parameters.load_cases b.load_scenario.load_case
              default).front_axle_load)
          (b.parameters.live_load_factor *
            (pyGetD b.parameters.load_cases b.load_scenario.load_case
              default).rear_axle_load) i j' := by
      intro j'
      rw [happ]
      show ((List.range' 2 ((deadSelfLoads b).n_load_instances - 2)).foldl
        (fun f i => liveStep f i _ _) (deadSelfLoads b).load_instances) i j' = _
      exact foldl_liveStep_mem _ _ _ _ i hmem (List.nodup_range' 2 _) j'
    refine ⟨?_, ?_, ?_⟩
    · rw [hrw (2 * i)]
      unfold liveStep decOne
      rw [if_neg (by omega), if_pos (by omega)]
    · rw [hrw (2 * i - 2)]
      unfold liveStep decOne
      rw [if_pos (by omega), if_neg (by omega)]
    · intro j hj1 hj2
      rw [hrw j]
      unfold liveStep decOne
      rw [if_neg (by omega), if_neg (by omega)]

/-- 2 panels, simple support, load case A: three deck joints, four load
instances. -/
def descC4 : ScenarioDescriptor := ⟨[1, 0, 2, 0, 0, 0, 0, 0, 0, 0], 0⟩

/-- Witness for C4: on the fresh `descC4` bridge, instance 2 carries
the factored front axle (`1.75 * 1.33 * 44`) at entry `2 * 2 = 4`. -/
theorem c4_live_load_instances_witness :
    (2 ≤ 2 ∧ 2 ≤ (Bridge.init descC4).load_scenario.n_loaded_joints) ∧
    (Bridge.init descC4)._apply_loads.load_instances 2 (2 * 2) =
      (deadSelfLoads (Bridge.init descC4)).load_instances 2 (2 * 2) -
        (Bridge.init descC4).parameters.live_load_factor *
          (pyGetD (Bridge.init descC4).parameters.load_cases
            (Bridge.init descC4).load_scenario.load_case default).front_axle_load :=
  ⟨⟨le_refl 2, by decide⟩,
   ((c4_live_load_instances (Bridge.init descC4)).2.2.2 2 (le_refl 2) (by decide)).1⟩

/-- Counterexample for C4: the claim says the final load instance
`n_loaded_joints + 1 = 4` of the `descC4` bridge carries the factored
rear axle load (`1.75 * 1.33 * 181`) at the vertical DOF of deck joint
3 (entry 6); the code applies no axle load to the final instance, whose
entry 6 keeps its dead-load-only value. -/
theorem c4_counterexample :
    ¬ ((Bridge.init descC4)._apply_loads.load_instances 4 6 =
      (deadSelfLoads (Bridge.init descC4)).load_instances 4 6 -
        1.75 * 1.33 * 181) := by
  have heq : (Bridge.init descC4)._apply_loads.load_instances 4 6 =
      (deadSelfLoads (Bridge.init descC4)).load_instances 4 6 := by
    show ((List.range' 2 ((deadSelfLoads (Bridge.init descC4)).n_load_instances - 2)).foldl
      (fun f i => liveStep f i
        ((Bridge.init descC4).parameters.live_load_factor *
          (pyGetD (Bridge.init descC4).parameters.load_cases
            (Bridge.init descC4).load_scenario.load_case default).front_axle_load)
        ((Bridge.init descC4).parameters.live_load_factor *
          (pyGetD (Bridge.init descC4).parameters.load_cases
            (Bridge.init descC4).load_scenario.load_case default).rear_axle_load))
      (deadSelfLoads (Bridge.init descC4)).load_instances) 4 6 =
      (deadSelfLoads (Bridge.init descC4)).load_instances 4 6
    rw [foldl_liveStep_not_mem]
    rw [show (deadSelfLoads (Bridge.init descC4)).n_load_instances = 4 from rfl,
      List.mem_range'_1]
    omega
  rw [heq]
  intro hc
  have h0 : (1.75 * 1.33 * 181 : ℚ) = 0 := sub_eq_self.mp hc.symm
  norm_num at h0

/-! ## Claim C10 -/

/-- The acceptance condition of `Bridge._add_joint` for new coordinates:
not at max joints, x in range (or a cable anchor), y in range. -/
def addJointOk (b : Bridge) (coords : ℤ × ℤ) : Prop :=
  ¬ b.n_joints = Bridge.max_joints ∧
  ¬ ((coords.1 > (b.load_scenario.num_length_grids : ℤ) ∨ coords.1 < 0) ∧
      (match b.load_scenario.cable_anchors_x with
       | some anchors => decide (¬ coords.1 ∈ anchors)
       | none => false) = true) ∧
  ¬ (coords.2 > (b.load_scenario.over_grids : ℤ) ∨
      coords.2 < -(b.load_scenario.under_grids : ℤ))

instance (b : Bridge) (coords : ℤ × ℤ) : Decidable (addJointOk b coords) := by
  unfold addJointOk
  infer_instance

theorem add_joint_ok (b : Bridge) (coords : ℤ × ℤ) (h : addJointOk b coords) :
    b._add_joint coords = (true, BridgeError.BridgeJointNotConnected,
      { b with
        n_joints := b.n_joints + 1
        joints := b.joints ++ [⟨b.n_joints + 1, coords.1, coords.2⟩]
        joint_coords := dictInsert b.joint_coords coords
          ⟨b.n_joints + 1, coords.1, coords.2⟩ }) := by
  unfold Bridge._add_joint
  rw [if_neg h.1, if_neg h.2.1, if_neg h.2.2]

/-- Claim C10: with distinct padded endpoint coordinates,
(1) if neither endpoint exists, `add_member` rejects the member with
`BridgeJointNotConnected` and leaves the bridge unchanged;
(2) if exactly one endpoint is new and that joint passes the bounds and
max-joints checks, the member and the new joint ARE added — yet the
returned code is `BridgeJointNotConnected`, the same code as in case
(1), not `BridgeNoError` (the success code `_add_joint` hands back is
`BridgeJointNotConnected` and `add_member` returns it);
(3) only when both endpoints already exist does a successful
`add_member` return `BridgeNoError`. -/
theorem c10_add_member_error_codes (b : Bridge)
    (start_x start_y end_x end_y : ℤ) (material_index sectionIdx size : ℕ)
    (hne : ¬ (start_x - b.pad_x_action = end_x - b.pad_x_action ∧
        start_y - b.pad_y_action = end_y - b.pad_y_action)) :
    ((¬ coordsMem b.joint_coords (start_x - b.pad_x_action, start_y - b.pad_y_action) = true) →
     (¬ coordsMem b.joint_coords (end_x - b.pad_x_action, end_y - b.pad_y_action) = true) →
      b.add_member start_x start_y end_x end_y material_index sectionIdx size =
        (BridgeError.BridgeJointNotConnected, b)) ∧
    ((¬ coordsMem b.joint_coords (start_x - b.pad_x_action, start_y - b.pad_y_action) = true) →
      coordsMem b.joint_coords (end_x - b.pad_x_action, end_y - b.pad_y_action) = true →
      addJointOk b (start_x - b.pad_x_action, start_y - b.pad_y_action) →
      (b.add_member start_x start_y end_x end_y material_index sectionIdx size).1 =
        BridgeError.BridgeJointNotConnected ∧
      (b.add_member start_x start_y end_x end_y material_index sectionIdx size).2.n_members =
        b.n_members + 1 ∧
      (b.add_member start_x start_y end_x end_y material_index sectionIdx size).2.n_joints =
        b.n_joints + 1) ∧
    (coordsMem b.joint_coords (start_x - b.pad_x_action, start_y - b.pad_y_action) = true →
      (¬ coordsMem b.joint_coords (end_x - b.pad_x_action, end_y - b.pad_y_action) = true) →
      addJointOk b (end_x - b.pad_x_action, end_y - b.pad_y_action) →
      (b.add_member start_x start_y end_x end_y material_index sectionIdx size).1 =
        BridgeError.BridgeJointNotConnected ∧
      (b.add_member start_x start_y end_x end_y material_index sectionIdx size).2.n_members =
        b.n_members + 1 ∧
      (b.add_member start_x start_y end_x end_y material_index sectionIdx size).2.n_joints =
        b.n_joints + 1) ∧
    (coordsMem b.joint_coords (start_x - b.pad_x_action, start_y - b.pad_y_action) = true →
      coordsMem b.joint_coords (end_x - b.pad_x_action, end_y - b.pad_y_action) = true →
      (b.add_member start_x start_y end_x end_y material_index sectionIdx size).1 =
        BridgeError.BridgeNoError ∧
      (b.add_member start_x start_y end_x end_y material_index sectionIdx size).2.n_members =
        b.n_members + 1 ∧
      (b.add_member start_x start_y end_x end_y material_index sectionIdx size).2.n_joints =
        b.n_joints) := by
  refine ⟨?_, ?_, ?_, ?_⟩
  · intro hs he
    unfold Bridge.add_member
    rw [if_neg hne, if_pos ⟨hs, he⟩]
  · intro hs he hok
    unfold Bridge.add_member
    rw [if_neg hne]
    rw [if_neg (fun hc => hc.2 he)]
    rw [if_pos hs]
    rw [add_joint_ok b _ hok]
    exact ⟨rfl, rfl, rfl⟩
  · intro hs he hok
    unfold Bridge.add_member
    rw [if_neg hne]
    rw [if_neg (fun hc => hc.1 hs)]
    rw [if_neg (fun hc => hc hs), if_pos he]
    rw [add_joint_ok b _ hok]
    exact ⟨rfl, rfl, rfl⟩
  · intro hs he
    unfold Bridge.add_member
    rw [if_neg hne]
    rw [if_neg (fun hc => hc.1 hs)]
    rw [if_neg (fun hc => hc hs), if_neg (fun hc => hc he)]
    exact ⟨rfl, rfl, rfl⟩

/-- Witness for C10: on the fresh 1-panel `descC7` scenario, adding a
member from the existing deck joint (0, 0) to the new in-bounds joint
(8, 0) (actions are pre-padding: pad_y is 96 here) succeeds, adds the
member and the joint, and returns `BridgeJointNotConnected`. -/
theorem c10_add_member_error_codes_witness :
    (¬ ((0 : ℤ) - (Bridge.init descC7).pad_x_action = 8 - (Bridge.init descC7).pad_x_action ∧
        (96 : ℤ) - (Bridge.init descC7).pad_y_action = 96 - (Bridge.init descC7).pad_y_action) ∧
      coordsMem (Bridge.init descC7).joint_coords
        (0 - (Bridge.init descC7).pad_x_action, 96 - (Bridge.init descC7).pad_y_action) = true ∧
      ¬ coordsMem (Bridge.init descC7).joint_coords
        (8 - (Bridge.init descC7).pad_x_action, 96 - (Bridge.init descC7).pad_y_action) = true ∧
      addJointOk (Bridge.init descC7)
        (8 - (Bridge.init descC7).pad_x_action, 96 - (Bridge.init descC7).pad_y_action)) ∧
    ((Bridge.init descC7).add_member 0 96 8 96 0 0 0).1 =
      BridgeError.BridgeJointNotConnected ∧
    ((Bridge.init descC7).add_member 0 96 8 96 0 0 0).2.n_members =
      (Bridge.init descC7).n_members + 1 ∧
    ((Bridge.init descC7).add_member 0 96 8 96 0 0 0).2.n_joints =
      (Bridge.init descC7).n_joints + 1 :=
  ⟨⟨by decide, by decide, by decide, by decide⟩,
   (c10_add_member_error_codes (Bridge.init descC7) 0 96 8 96 0 0 0
      (by decide)).2.2.1 (by decide) (by decide) (by decide)⟩

/-! ## Claim C6 -/

/-- The matrix state after the first `k` elimination passes (with no
pivot checks): the matrix at which pass `k + 1` reads its pivot. -/
def elimStates (n : ℕ) (A : QMat) (k : ℕ) : QMat :=
  (List.range' 1 k).foldl (elimStep n) A

theorem invertLoop_eq_none_iff (n : ℕ) :
    ∀ (l : List ℕ) (A : QMat),
      invertLoop n A l = none ↔
        ∃ i, ∃ h : i < l.length,
          |getS ((l.take i).foldl (elimStep n) A) (l.get ⟨i, h⟩) (l.get ⟨i, h⟩)| <
            0.99 := by
  intro l
  induction l with
  | nil =>
    intro A
    constructor
    · intro h; exact absurd h (by simp [invertLoop])
    · rintro ⟨i, h, _⟩; exact absurd h (by simp)
  | cons e rest ih =>
    intro A
    unfold invertLoop
    by_cases hp : |getS A e e| < 0.99
    · rw [if_pos hp]
      constructor
      · intro _
        exact ⟨0, by simp, by simpa using hp⟩
      · intro _; rfl
    · rw [if_neg hp]
      rw [ih (elimStep n A e)]
      constructor
      · rintro ⟨i, h, hlt⟩
        refine ⟨i + 1, by simpa using Nat.succ_lt_succ h, ?_⟩
        simpa using hlt
      · rintro ⟨i, h, hlt⟩
        cases i with
        | zero => exact absurd (by simpa using hlt) hp
        | succ j =>
          refine ⟨j, by simpa using Nat.lt_of_succ_lt_succ h, ?_⟩
          simpa using hlt

theorem take_range' (n i : ℕ) (h : i ≤ n) :
    (List.range' 1 n).take i = List.range' 1 i := by
  have happ : List.range' 1 i ++ List.range' (1 + i) (n - i) = List.range' 1 n := by
    rw [List.range'_append_1 1 i (n - i)]
    congr 1
    omega
  rw [← happ, List.take_append_of_le_length (by simp), List.take_of_length_le (by simp)]

theorem invert_eq_none_iff (n : ℕ) (A : QMat) :
    invert n A = none ↔
      ∃ e, 1 ≤ e ∧ e ≤ n ∧ |getS (elimStates n A (e - 1)) e e| < 0.99 := by
  unfold invert
  rw [invertLoop_eq_none_iff]
  constructor
  · rintro ⟨i, h, hlt⟩
    have hlen : i < n := by simpa using h
    refine ⟨i + 1, by omega, by omega, ?_⟩
    have hget : (List.range' 1 n).get ⟨i, h⟩ = 1 + i := by
      simp [List.get_eq_getElem]
    rw [hget] at hlt
    have htake : (List.range' 1 n).take i = List.range' 1 i := take_range' n i (by omega)
    rw [htake] at hlt
    have h1i : (1 : ℕ) + i = i + 1 := by omega
    rw [h1i] at hlt
    simpa [elimStates] using hlt
  · rintro ⟨e, h1, h2, hlt⟩
    have h : e - 1 < (List.range' 1 n).length := by simp; omega
    refine ⟨e - 1, h, ?_⟩
    have hget : (List.range' 1 n).get ⟨e - 1, h⟩ = e := by
      simp [List.get_eq_getElem]
      omega
    rw [hget]
    have htake : (List.range' 1 n).take (e - 1) = List.range' 1 (e - 1) :=
      take_range' n (e - 1) (by omega)
    rw [htake]
    exact hlt

/-- The analysis state and loads as they stand when `_invert` runs in
`get_results`: restraints derived, initial stiffness assembled, support
restraints applied. -/
def preInvertState (b : Bridge) (ld : BridgeLoads) : AnalysisState × BridgeLoads :=
  Analysis._apply_support_restraints b
    (Analysis._apply_initial_stiffness b
      (Analysis._apply_restraints b (Analysis.init b))) ld

/-- Claim C6: the Gauss-Jordan solver fails (modelled by
`invert = none`, the source's `error = AnalysisBadPivot` /
`return False`) exactly when, at some elimination step taken in order,
the magnitude of the current diagonal pivot is below 0.99; in that case
`get_results` returns invalid paired with the fully computed bridge cost
(the very value `calculate_cost` returns) — a total function, so no
exception is raised. -/
theorem c6_bad_pivot (b : Bridge) (ld : BridgeLoads) (fpow : ℚ → ℚ → ℚ) :
    (invert (preInvertState b ld).1.n_equations (preInvertState b ld).1.stiffness = none ↔
      ∃ e, 1 ≤ e ∧ e ≤ (preInvertState b ld).1.n_equations ∧
        |getS (elimStates (preInvertState b ld).1.n_equations
          (preInvertState b ld).1.stiffness (e - 1)) e e| < 0.99) ∧
    (invert (preInvertState b ld).1.n_equations (preInvertState b ld).1.stiffness = none →
      Analysis.get_results b ld fpow = (false, calculate_cost b)) := by
  refine ⟨invert_eq_none_iff _ _, ?_⟩
  intro hnone
  unfold preInvertState at hnone
  simp only [Analysis.get_results, hnone]

/-- Witness for C6: the theorem instantiated on the fresh 1-panel
bridge and its assembled loads. -/
theorem c6_bad_pivot_witness :
    (invert (preInvertState (Bridge.init descC7) (Bridge.init descC7)._apply_loads).1.n_equations
        (preInvertState (Bridge.init descC7) (Bridge.init descC7)._apply_loads).1.stiffness
        = none ↔
      ∃ e, 1 ≤ e ∧
        e ≤ (preInvertState (Bridge.init descC7) (Bridge.init descC7)._apply_loads).1.n_equations ∧
        |getS (elimStates
          (preInvertState (Bridge.init descC7) (Bridge.init descC7)._apply_loads).1.n_equations
          (preInvertState (Bridge.init descC7) (Bridge.init descC7)._apply_loads).1.stiffness
          (e - 1)) e e| < 0.99) ∧
    (invert (preInvertState (Bridge.init descC7) (Bridge.init descC7)._apply_loads).1.n_equations
        (preInvertState (Bridge.init descC7) (Bridge.init descC7)._apply_loads).1.stiffness
        = none →
      Analysis.get_results (Bridge.init descC7) (Bridge.init descC7)._apply_loads (fun _ _ => 1) =
        (false, calculate_cost (Bridge.init descC7))) :=
  c6_bad_pivot (Bridge.init descC7) (Bridge.init descC7)._apply_loads (fun _ _ => 1)

/-! ## Claim C9 -/

theorem zeroRowCol_succ (n : ℕ) (K : QMat) (r : ℕ) :
    zeroRowCol (n + 1) K r =
      setS (setS (zeroRowCol n K r) r (n + 1) 0) (n + 1) r 0 := by
  unfold zeroRowCol
  rw [List.range'_concat]
  rw [List.foldl_append]
  rw [show 1 + 1 * n = n + 1 by omega]
  rfl

theorem getS_zeroRowCol (K : QMat) (r : ℕ) (hr : 1 ≤ r) (i' j' : ℕ)
    (hi' : 1 ≤ i') (hj' : 1 ≤ j') :
    ∀ n_eq, getS (zeroRowCol n_eq K r) i' j' =
      if (i' = r ∧ j' ≤ n_eq) ∨ (j' = r ∧ i' ≤ n_eq) then 0 else getS K i' j' := by
  intro n_eq
  induction n_eq with
  | zero =>
    rw [if_neg (by omega)]
    rfl
  | succ n ihn =>
    rw [zeroRowCol_succ]
    rw [getS_setS _ _ _ _ _ _ (by omega) hi' hr hj']
    rw [getS_setS _ _ _ _ _ _ hr hi' (by omega) hj']
    rw [ihn]
    split_ifs <;> first | rfl | omega | simp_all

/-- DOF `d` is one of joint `k`'s restrained directions. -/
def dofOf (xr yr : ℕ → Bool) (k d : ℕ) : Prop :=
  (xr k = true ∧ d = 2 * k - 1) ∨ (yr k = true ∧ d = 2 * k)

instance (xr yr : ℕ → Bool) (k d : ℕ) : Decidable (dofOf xr yr k d) := by
  unfold dofOf
  infer_instance

/-- The stiffness component of `restrainJoint`. -/
def restrainK (xr yr : ℕ → Bool) (n_eq : ℕ) (K : QMat) (k : ℕ) : QMat :=
  let K1 := if xr k then setS (zeroRowCol n_eq K (2 * k - 1)) (2 * k - 1) (2 * k - 1) 1
            else K
  if yr k then setS (zeroRowCol n_eq K1 (2 * k)) (2 * k) (2 * k) 1 else K1

/-- The load-vector component of `restrainJoint`. -/
def restrainV (xr yr : ℕ → Bool) (v : ℕ → ℚ) (k : ℕ) : ℕ → ℚ :=
  let v1 := if xr k then upd1 v (2 * k - 1) 0 else v
  if yr k then upd1 v1 (2 * k) 0 else v1

theorem restrainJoint_split (xr yr : ℕ → Bool) (n_eq : ℕ)
    (p : QMat × (ℕ → ℚ)) (k : ℕ) :
    restrainJoint xr yr n_eq p k =
      (restrainK xr yr n_eq p.1 k, restrainV xr yr p.2 k) := by
  unfold restrainJoint restrainK restrainV
  split_ifs <;> rfl

theorem getS_restrainK (xr yr : ℕ → Bool) (n_eq : ℕ) (K : QMat) (k : ℕ)
    (hk : 1 ≤ k) (i j : ℕ) (hi : 1 ≤ i) (hj : 1 ≤ j) :
    getS (restrainK xr yr n_eq K k) i j =
      if i = j ∧ dofOf xr yr k i then 1
      else if (dofOf xr yr k i ∧ j ≤ n_eq) ∨ (dofOf xr yr k j ∧ i ≤ n_eq) then 0
      else getS K i j := by
  unfold restrainK
  by_cases hx : xr k <;> by_cases hy : yr k <;>
    simp only [hx, hy, if_true, if_false, dofOf, false_and, true_and, or_false,
      false_or, if_neg, Bool.false_eq_true]
  · rw [getS_setS (zeroRowCol n_eq (setS (zeroRowCol n_eq K (2 * k - 1))
        (2 * k - 1) (2 * k - 1) 1) (2 * k)) (2 * k) (2 * k) i j 1
        (by omega) hi (by omega) hj,
      getS_zeroRowCol _ (2 * k) (by omega) i j hi hj n_eq,
      getS_setS (zeroRowCol n_eq K (2 * k - 1)) (2 * k - 1) (2 * k - 1) i j 1
        (by omega) hi (by omega) hj,
      getS_zeroRowCol K (2 * k - 1) (by omega) i j hi hj n_eq]
    split_ifs <;> first | rfl | omega | simp_all
  · rw [getS_setS (zeroRowCol n_eq K (2 * k - 1)) (2 * k - 1) (2 * k - 1) i j 1
        (by omega) hi (by omega) hj,
      getS_zeroRowCol K (2 * k - 1) (by omega) i j hi hj n_eq]
    split_ifs <;> first | rfl | omega | simp_all
  · rw [getS_setS (zeroRowCol n_eq K (2 * k)) (2 * k) (2 * k) i j 1
        (by omega) hi (by omega) hj,
      getS_zeroRowCol K (2 * k) (by omega) i j hi hj n_eq]
    split_ifs <;> first | rfl | omega | simp_all
  · split_ifs <;> first | rfl | omega | simp_all

theorem restrainV_apply (xr yr : ℕ → Bool) (v : ℕ → ℚ) (k : ℕ) (hk : 1 ≤ k)
    (d : ℕ) (hd : 1 ≤ d) :
    restrainV xr yr v k d = if dofOf xr yr k d then 0 else v d := by
  unfold restrainV upd1
  by_cases hx : xr k <;> by_cases hy : yr k <;>
    simp only [hx, hy, if_true, if_false, dofOf, false_and, true_and, or_false,
      false_or, Bool.false_eq_true] <;>
    split_ifs <;> first | rfl | omega | simp_all

/-- One full pass of the joint loop over the stiffness matrix. -/
def passK (xr yr : ℕ → Bool) (n_eq nj : ℕ) (K : QMat) : QMat :=
  (List.range' 1 nj).foldl (restrainK xr yr n_eq) K

/-- One full pass of the joint loop over one load vector. -/
def passV (xr yr : ℕ → Bool) (nj : ℕ) (v : ℕ → ℚ) : ℕ → ℚ :=
  (List.range' 1 nj).foldl (restrainV xr yr) v

theorem foldl_restrainJoint_split (xr yr : ℕ → Bool) (n_eq : ℕ) (l : List ℕ) :
    ∀ p : QMat × (ℕ → ℚ),
      l.foldl (restrainJoint xr yr n_eq) p =
        (l.foldl (restrainK xr yr n_eq) p.1, l.foldl (restrainV xr yr) p.2) := by
  induction l with
  | nil => intro p; rfl
  | cons a t ih =>
    intro p
    simp only [List.foldl_cons, restrainJoint_split]
    rw [ih]

/-- DOF `d` is a restrained direction of some joint `1..nj`. -/
def restrainedDof (xr yr : ℕ → Bool) (nj d : ℕ) : Prop :=
  ∃ k, 1 ≤ k ∧ k ≤ nj ∧ dofOf xr yr k d

instance (xr yr : ℕ → Bool) (nj d : ℕ) : Decidable (restrainedDof xr yr nj d) :=
  decidable_of_iff (∃ k < nj + 1, 1 ≤ k ∧ dofOf xr yr k d) (by
    unfold restrainedDof
    constructor
    · rintro ⟨k, h1, h2, h3⟩; exact ⟨k, h2, by omega, h3⟩
    · rintro ⟨k, h1, h2, h3⟩; exact ⟨k, by omega, h1, h3⟩)

theorem restrainedDof_zero (xr yr : ℕ → Bool) (d : ℕ) :
    ¬ restrainedDof xr yr 0 d := by
  rintro ⟨k, h1, h2, _⟩
  omega

theorem restrainedDof_succ (xr yr : ℕ → Bool) (nj d : ℕ) :
    restrainedDof xr yr (nj + 1) d ↔
      restrainedDof xr yr nj d ∨ dofOf xr yr (nj + 1) d := by
  constructor
  · rintro ⟨k, h1, h2, h3⟩
    rcases Nat.lt_or_ge k (nj + 1) with h | h
    · exact Or.inl ⟨k, h1, by omega, h3⟩
    · have : k = nj + 1 := by omega
      exact Or.inr (this ▸ h3)
  · rintro (⟨k, h1, h2, h3⟩ | h)
    · exact ⟨k, h1, by omega, h3⟩
    · exact ⟨nj + 1, by omega, le_refl _, h⟩

theorem range'_succ_concat (m : ℕ) :
    List.range' 1 (m + 1) = List.range' 1 m ++ [m + 1] := by
  rw [List.range'_concat]
  rw [show 1 + 1 * m = m + 1 by omega]

set_option maxHeartbeats 1000000 in
theorem getS_passK (xr yr : ℕ → Bool) (n_eq : ℕ) :
    ∀ (nj : ℕ) (K : QMat) (i j : ℕ), 1 ≤ i → 1 ≤ j →
      getS (passK xr yr n_eq nj K) i j =
        if i = j ∧ restrainedDof xr yr nj i then 1
        else if (restrainedDof xr yr nj i ∧ j ≤ n_eq) ∨
            (restrainedDof xr yr nj j ∧ i ≤ n_eq) then 0
        else getS K i j := by
  intro nj
  induction nj with
  | zero =>
    intro K i j hi hj
    rw [if_neg (fun hc => restrainedDof_zero xr yr i hc.2),
      if_neg (fun hc => hc.elim (fun h => restrainedDof_zero xr yr i h.1)
        (fun h => restrainedDof_zero xr yr j h.1))]
    rfl
  | succ m ihm =>
    intro K i j hi hj
    unfold passK
    rw [range'_succ_concat, List.foldl_append]
    simp only [List.foldl_cons, List.foldl_nil]
    rw [getS_restrainK xr yr n_eq _ (m + 1) (by omega) i j hi hj]
    rw [show (List.range' 1 m).foldl (restrainK xr yr n_eq) K
      = passK xr yr n_eq m K from rfl]
    rw [ihm K i j hi hj]
    simp only [restrainedDof_succ]
    by_cases hij : i = j
    · subst hij
      split_ifs <;> first | rfl | tauto
    · split_ifs <;> first | rfl | tauto

theorem passV_apply (xr yr : ℕ → Bool) :
    ∀ (nj : ℕ) (v : ℕ → ℚ) (d : ℕ), 1 ≤ d →
      passV xr yr nj v d = if restrainedDof xr yr nj d then 0 else v d := by
  intro nj
  induction nj with
  | zero =>
    intro v d hd
    rw [if_neg (restrainedDof_zero xr yr d)]
    rfl
  | succ m ihm =>
    intro v d hd
    unfold passV
    rw [range'_succ_concat, List.foldl_append]
    simp only [List.foldl_cons, List.foldl_nil]
    rw [restrainV_apply xr yr _ (m + 1) (by omega) d hd]
    rw [show (List.range' 1 m).foldl (restrainV xr yr) v
      = passV xr yr m v from rfl]
    rw [ihm v d hd]
    simp only [restrainedDof_succ]
    split_ifs <;> first | rfl | tauto

/-- One iteration of the outer per-load-vector loop of
`_apply_support_restraints`: run the joint loop against load vector `i`,
then store the updated vector back at index `i`. -/
def instanceStep (xr yr : ℕ → Bool) (n_eq nj : ℕ)
    (acc : QMat × (ℕ → ℕ → ℚ)) (i : ℕ) : QMat × (ℕ → ℕ → ℚ) :=
  let out := (List.range' 1 nj).foldl (restrainJoint xr yr n_eq) (acc.1, acc.2 i)
  (out.1, fun i' j' => if i' = i then out.2 j' else acc.2 i' j')

theorem instanceStep_fst (xr yr : ℕ → Bool) (n_eq nj : ℕ)
    (acc : QMat × (ℕ → ℕ → ℚ)) (a : ℕ) :
    (instanceStep xr yr n_eq nj acc a).1 = passK xr yr n_eq nj acc.1 := by
  unfold instanceStep
  rw [foldl_restrainJoint_split]
  rfl

theorem instanceStep_snd (xr yr : ℕ → Bool) (n_eq nj : ℕ)
    (acc : QMat × (ℕ → ℕ → ℚ)) (a i' j' : ℕ) :
    (instanceStep xr yr n_eq nj acc a).2 i' j' =
      if i' = a then passV xr yr nj (acc.2 a) j' else acc.2 i' j' := by
  unfold instanceStep
  rw [foldl_restrainJoint_split]
  rfl

theorem foldl_instanceStep (xr yr : ℕ → Bool) (n_eq nj : ℕ) :
    ∀ (l : List ℕ), l.Nodup → ∀ acc : QMat × (ℕ → ℕ → ℚ),
      (l.foldl (instanceStep xr yr n_eq nj) acc).1 =
        (passK xr yr n_eq nj)^[l.length] acc.1 ∧
      (∀ i' j', (l.foldl (instanceStep xr yr n_eq nj) acc).2 i' j' =
        if i' ∈ l then passV xr yr nj (acc.2 i') j' else acc.2 i' j') := by
  intro l
  induction l with
  | nil =>
    intro _ acc
    refine ⟨rfl, fun i' j' => ?_⟩
    rw [if_neg (List.not_mem_nil i')]
    rfl
  | cons a t ih =>
    intro hn acc
    simp only [List.nodup_cons] at hn
    simp only [List.foldl_cons]
    obtain ⟨ih1, ih2⟩ := ih hn.2 (instanceStep xr yr n_eq nj acc a)
    constructor
    · rw [ih1, instanceStep_fst, List.length_cons, Function.iterate_succ_apply]
    · intro i' j'
      rw [ih2 i' j']
      by_cases hit : i' ∈ t
      · rw [if_pos hit, if_pos (List.mem_cons_of_mem a hit)]
        have hia : i' ≠ a := fun hc => hn.1 (hc ▸ hit)
        have hfun : (instanceStep xr yr n_eq nj acc a).2 i' = acc.2 i' := by
          funext j''
          rw [instanceStep_snd, if_neg hia]
        rw [hfun]
      · rw [if_neg hit, instanceStep_snd]
        by_cases hia : i' = a
        · rw [if_pos hia, if_pos (by rw [hia]; exact List.mem_cons_self a t), hia]
        · rw [if_neg hia, if_neg (by
            intro hc
            rcases List.mem_cons.mp hc with h | h
            · exact hia h
            · exact hit h)]

theorem restrainedDof_pos (xr yr : ℕ → Bool) (nj d : ℕ)
    (h : restrainedDof xr yr nj d) : 1 ≤ d := by
  obtain ⟨k, h1, _, h3⟩ := h
  rcases h3 with ⟨_, h⟩ | ⟨_, h⟩ <;> omega

theorem getS_passK_iterate (xr yr : ℕ → Bool) (n_eq nj : ℕ) :
    ∀ (t : ℕ), 1 ≤ t → ∀ (K : QMat) (i j : ℕ), 1 ≤ i → 1 ≤ j →
      getS ((passK xr yr n_eq nj)^[t] K) i j =
        if i = j ∧ restrainedDof xr yr nj i then 1
        else if (restrainedDof xr yr nj i ∧ j ≤ n_eq) ∨
            (restrainedDof xr yr nj j ∧ i ≤ n_eq) then 0
        else getS K i j := by
  intro t
  induction t with
  | zero => intro h; omega
  | succ s ihs =>
    intro _ K i j hi hj
    rw [Function.iterate_succ_apply']
    rw [getS_passK xr yr n_eq nj _ i j hi hj]
    by_cases hs : 1 ≤ s
    · split_ifs with h1 h2
      · rfl
      · rfl
      · rw [ihs hs K i j hi hj, if_neg h1, if_neg h2]
    · have hs0 : s = 0 := by omega
      subst hs0
      rw [Function.iterate_zero_apply]

/-- Claim C9: after support restraints are applied to the stiffness
matrix and load vectors, for every restrained DOF `d` (an x- or y-DOF of
a joint `1..n_joints` whose restraint flag is set): the diagonal entry
`(d, d)` is 1, every off-diagonal entry of row `d` and of column `d`
within `1..n_equations` is 0, and entry `d` of every load-instance
vector is 0; entries whose row and column are both unrestrained keep
their previous (assembled) values. -/
theorem c9_support_restraints (b : Bridge) (st : AnalysisState) (ld : BridgeLoads) :
    (∀ d, restrainedDof st.x_restraints st.y_restraints b.n_joints d →
      getS (Analysis._apply_support_restraints b st ld).1.stiffness d d = 1 ∧
      (∀ j, 1 ≤ j → j ≤ st.n_equations → j ≠ d →
        getS (Analysis._apply_support_restraints b st ld).1.stiffness d j = 0 ∧
        getS (Analysis._apply_support_restraints b st ld).1.stiffness j d = 0) ∧
      (∀ i, i < ld.n_load_instances + 1 →
        (Analysis._apply_support_restraints b st ld).2.load_instances i d = 0)) ∧
    (∀ i j, 1 ≤ i → i ≤ st.n_equations → 1 ≤ j → j ≤ st.n_equations →
      ¬ restrainedDof st.x_restraints st.y_restraints b.n_joints i →
      ¬ restrainedDof st.x_restraints st.y_restraints b.n_joints j →
      getS (Analysis._apply_support_restraints b st ld).1.stiffness i j =
        getS st.stiffness i j) := by
  have hsplit := foldl_instanceStep st.x_restraints st.y_restraints st.n_equations
    b.n_joints (List.range (ld.n_load_instances + 1)) (List.nodup_range _)
    (st.stiffness, ld.load_instances)
  have hK : (Analysis._apply_support_restraints b st ld).1.stiffness =
      (passK st.x_restraints st.y_restraints st.n_equations
        b.n_joints)^[ld.n_load_instances + 1] st.stiffness := by
    have h := hsplit.1
    rw [List.length_range] at h
    exact h
  have hV : ∀ i' j', (Analysis._apply_support_restraints b st ld).2.load_instances i' j' =
      if i' ∈ List.range (ld.n_load_instances + 1)
      then passV st.x_restraints st.y_restraints b.n_joints (ld.load_instances i') j'
      else ld.load_instances i' j' := hsplit.2
  constructor
  · intro d hd
    have hd1 : 1 ≤ d := restrainedDof_pos _ _ _ _ hd
    refine ⟨?_, ?_, ?_⟩
    · rw [hK, getS_passK_iterate _ _ _ _ _ (by omega) _ d d hd1 hd1,
        if_pos ⟨rfl, hd⟩]
    · intro j hj1 hj2 hjd
      constructor
      · rw [hK, getS_passK_iterate _ _ _ _ _ (by omega) _ d j hd1 hj1,
          if_neg (fun hc => hjd hc.1.symm), if_pos (Or.inl ⟨hd, hj2⟩)]
      · rw [hK, getS_passK_iterate _ _ _ _ _ (by omega) _ j d hj1 hd1,
          if_neg (fun hc => hjd hc.1), if_pos (Or.inr ⟨hd, hj2⟩)]
    · intro i hi
      rw [hV i d, if_pos (List.mem_range.mpr hi),
        passV_apply st.x_restraints st.y_restraints b.n_joints (ld.load_instances i) d hd1,
        if_pos hd]
  · intro i j hi1 hi2 hj1 hj2 hri hrj
    rw [hK, getS_passK_iterate _ _ _ _ _ (by omega) _ i j hi1 hj1,
      if_neg (fun hc => hri hc.2),
      if_neg (fun hc => hc.elim (fun h => hri h.1) (fun h => hrj h.1))]


/-- Witness for C9: on the fresh 2-panel bridge with simple support,
DOF 2 (the y direction of joint 1) is restrained, and its diagonal
stiffness entry is 1 after `_apply_support_restraints`. -/
theorem c9_support_restraints_witness :
    restrainedDof
      (Analysis._apply_restraints (Bridge.init descC4)
        (Analysis.init (Bridge.init descC4))).x_restraints
      (Analysis._apply_restraints (Bridge.init descC4)
        (Analysis.init (Bridge.init descC4))).y_restraints
      (Bridge.init descC4).n_joints 2 ∧
    getS (Analysis._apply_support_restraints (Bridge.init descC4)
        (Analysis._apply_restraints (Bridge.init descC4)
          (Analysis.init (Bridge.init descC4)))
        (Bridge.init descC4)._apply_loads).1.stiffness 2 2 = 1 :=
  have hd : restrainedDof
      (Analysis._apply_restraints (Bridge.init descC4)
        (Analysis.init (Bridge.init descC4))).x_restraints
      (Analysis._apply_restraints (Bridge.init descC4)
        (Analysis.init (Bridge.init descC4))).y_restraints
      (Bridge.init descC4).n_joints 2 := by decide
  ⟨hd, ((c9_support_restraints (Bridge.init descC4)
      (Analysis._apply_restraints (Bridge.init descC4)
        (Analysis.init (Bridge.init descC4)))
      (Bridge.init descC4)._apply_loads).1 2 hd).1⟩

theorem _fold_max_eq_max (m x : ℚ) : _fold_max m x = max m x := by
  unfold _fold_max
  rcases le_or_lt x m with h | h
  · rw [if_neg (not_lt.mpr h), max_eq_left h]
  · rw [if_pos h, max_eq_right (le_of_lt h)]

/-- Claim C1's maximum compression of a member: the largest negated
negative member force over the load instances, 0 if none. -/
def specMaxCompression (F : QMat) (n_load_instances mnum : ℕ) : ℚ :=
  ((List.range' 1 n_load_instances).map (fun li => getS F mnum li)).foldl
    (fun a x => if x < 0 then max a (-x) else a) 0

/-- Claim C1's maximum tension of a member: the largest positive member
force over the load instances, 0 if none. -/
def specMaxTension (F : QMat) (n_load_instances mnum : ℕ) : ℚ :=
  ((List.range' 1 n_load_instances).map (fun li => getS F mnum li)).foldl
    (fun a x => if x < 0 then a else max a x) 0

theorem foldl_fold_max_pair (l : List ℚ) :
    ∀ (a b : ℚ),
      l.foldl (fun (p : ℚ × ℚ) x =>
        if x < 0 then (_fold_max p.1 (-x), p.2) else (p.1, _fold_max p.2 x)) (a, b) =
      (l.foldl (fun x y => if y < 0 then max x (-y) else x) a,
       l.foldl (fun x y => if y < 0 then x else max x y) b) := by
  induction l with
  | nil => intro a b; rfl
  | cons c t ih =>
    intro a b
    simp only [List.foldl_cons]
    by_cases h : c < 0
    · rw [if_pos h, if_pos h, if_pos h, _fold_max_eq_max]
      exact ih (max a (-c)) b
    · rw [if_neg h, if_neg h, if_neg h, _fold_max_eq_max]
      exact ih a (max b c)

theorem maxForcesFold_eq (F : QMat) (n m : ℕ) :
    maxForcesFold F n m = (specMaxCompression F n m, specMaxTension F n m) := by
  unfold maxForcesFold specMaxCompression specMaxTension
  rw [← foldl_fold_max_pair ((List.range' 1 n).map (fun li => getS F m li)) 0 0,
    List.foldl_map]

/-- Claim C1's compressive failure of a member: its compressive fail
mode is slenderness, or its maximum compression reaches its compressive
capacity. -/
def specCompFails (strengths : ℕ → MemberStrength) (F : QMat)
    (n_load_instances : ℕ) (m : Member) : Prop :=
  (strengths m.number).compressive_fail_mode = FailModeSlenderness ∨
    (strengths m.number).compressive ≤ specMaxCompression F n_load_instances m.number

/-- Claim C1's tensile failure of a member. -/
def specTensFails (strengths : ℕ → MemberStrength) (F : QMat)
    (n_load_instances : ℕ) (m : Member) : Prop :=
  (strengths m.number).tensile_fail_mode = FailModeSlenderness ∨
    (strengths m.number).tensile ≤ specMaxTension F n_load_instances m.number

instance (s : ℕ → MemberStrength) (F : QMat) (n : ℕ) (m : Member) :
    Decidable (specCompFails s F n m) := by
  unfold specCompFails
  infer_instance

instance (s : ℕ → MemberStrength) (F : QMat) (n : ℕ) (m : Member) :
    Decidable (specTensFails s F n m) := by
  unfold specTensFails
  infer_instance

theorem summarizeStep_effect (ld : BridgeLoads) (st : AnalysisState) (m : Member) :
    (summarizeStep ld st m).n_compressive_failures =
      st.n_compressive_failures +
        (if specCompFails st.member_strength st.member_force ld.n_load_instances m
         then 1 else 0) ∧
    (summarizeStep ld st m).n_tensile_failures =
      st.n_tensile_failures +
        (if specTensFails st.member_strength st.member_force ld.n_load_instances m
         then 1 else 0) ∧
    (summarizeStep ld st m).member_force = st.member_force ∧
    (summarizeStep ld st m).error = st.error ∧
    (∀ k, k ≠ m.number → (summarizeStep ld st m).member_strength k =
      st.member_strength k) := by
  have hcomp : specCompFails st.member_strength st.member_force ld.n_load_instances m ↔
      ¬ ((st.member_strength m.number).compressive_fail_mode ≠ FailModeSlenderness ∧
        specMaxCompression st.member_force ld.n_load_instances m.number <
          (st.member_strength m.number).compressive) := by
    unfold specCompFails
    rw [not_and_or, not_not, not_lt]
  have htens : specTensFails st.member_strength st.member_force ld.n_load_instances m ↔
      ¬ ((st.member_strength m.number).tensile_fail_mode ≠ FailModeSlenderness ∧
        specMaxTension st.member_force ld.n_load_instances m.number <
          (st.member_strength m.number).tensile) := by
    unfold specTensFails
    rw [not_and_or, not_not, not_lt]
  simp only [summarizeStep, maxForcesFold_eq]
  by_cases hc : (st.member_strength m.number).compressive_fail_mode ≠ FailModeSlenderness ∧
      specMaxCompression st.member_force ld.n_load_instances m.number <
        (st.member_strength m.number).compressive <;>
  by_cases ht : (st.member_strength m.number).tensile_fail_mode ≠ FailModeSlenderness ∧
      specMaxTension st.member_force ld.n_load_instances m.number <
        (st.member_strength m.number).tensile
  · rw [if_pos ht, if_pos hc, if_neg (fun hs => hcomp.mp hs hc),
      if_neg (fun hs => htens.mp hs ht)]
    refine ⟨rfl, rfl, rfl, rfl, fun k hk => ?_⟩
    simp only [updF_apply, if_neg hk]
  · rw [if_neg ht, if_pos hc, if_neg (fun hs => hcomp.mp hs hc),
      if_pos (htens.mpr ht)]
    refine ⟨rfl, rfl, rfl, rfl, fun k hk => ?_⟩
    simp only [updF_apply, if_neg hk]
  · rw [if_pos ht, if_neg hc, if_pos (hcomp.mpr hc),
      if_neg (fun hs => htens.mp hs ht)]
    refine ⟨rfl, rfl, rfl, rfl, fun k hk => ?_⟩
    simp only [updF_apply, if_neg hk]
  · rw [if_neg ht, if_neg hc, if_pos (hcomp.mpr hc), if_pos (htens.mpr ht)]
    refine ⟨rfl, rfl, rfl, rfl, fun k hk => ?_⟩
    simp only [updF_apply, if_neg hk]

theorem summarize_fold (ld : BridgeLoads) (l : List Member) :
    ∀ (st : AnalysisState), (l.map Member.number).Nodup →
      (l.foldl (summarizeStep ld) st).n_compressive_failures =
        st.n_compressive_failures + l.countP (fun m =>
          decide (specCompFails st.member_strength st.member_force
            ld.n_load_instances m)) ∧
      (l.foldl (summarizeStep ld) st).n_tensile_failures =
        st.n_tensile_failures + l.countP (fun m =>
          decide (specTensFails st.member_strength st.member_force
            ld.n_load_instances m)) ∧
      (l.foldl (summarizeStep ld) st).error = st.error := by
  induction l with
  | nil => intro st _; exact ⟨by simp, by simp, rfl⟩
  | cons m t ih =>
    intro st hnd
    rw [List.map_cons, List.nodup_cons] at hnd
    obtain ⟨hm, hnd⟩ := hnd
    obtain ⟨e1, e2, e3, e4, e5⟩ := summarizeStep_effect ld st m
    obtain ⟨i1, i2, i3⟩ := ih (summarizeStep ld st m) hnd
    have hne : ∀ m2 ∈ t, m2.number ≠ m.number := by
      intro m2 hm2 he
      exact hm (he ▸ List.mem_map_of_mem Member.number hm2)
    have hcc : t.countP (fun mm =>
        decide (specCompFails (summarizeStep ld st m).member_strength
          (summarizeStep ld st m).member_force ld.n_load_instances mm)) =
        t.countP (fun mm =>
        decide (specCompFails st.member_strength st.member_force
          ld.n_load_instances mm)) := by
      refine List.countP_congr (fun m2 hm2 => ?_)
      simp only [specCompFails, e3, e5 m2.number (hne m2 hm2)]
    have htc : t.countP (fun mm =>
        decide (specTensFails (summarizeStep ld st m).member_strength
          (summarizeStep ld st m).member_force ld.n_load_instances mm)) =
        t.countP (fun mm =>
        decide (specTensFails st.member_strength st.member_force
          ld.n_load_instances mm)) := by
      refine List.countP_congr (fun m2 hm2 => ?_)
      simp only [specTensFails, e3, e5 m2.number (hne m2 hm2)]
    refine ⟨?_, ?_, ?_⟩
    · rw [List.foldl_cons, i1, hcc, e1, List.countP_cons]
      simp only [decide_eq_true_eq]
      omega
    · rw [List.foldl_cons, i2, htc, e2, List.countP_cons]
      simp only [decide_eq_true_eq]
      omega
    · rw [List.foldl_cons, i3, e4]

/-- The analysis state in `get_results` just before `_summarize_results`
runs, given the inverted stiffness matrix `K` returned by `_invert`. -/
def postInvertState (b : Bridge) (ld : BridgeLoads) (fpow : ℚ → ℚ → ℚ)
    (K : QMat) : AnalysisState :=
  Analysis._compute_member_strengths b fpow
    (Analysis._compute_joint_displacements b (preInvertState b ld).2
      { (preInvertState b ld).1 with stiffness := K })

theorem compute_joint_displacements_preserves (b : Bridge) (ld : BridgeLoads)
    (st : AnalysisState) :
    (Analysis._compute_joint_displacements b ld st).error = st.error ∧
    (Analysis._compute_joint_displacements b ld st).n_compressive_failures =
      st.n_compressive_failures ∧
    (Analysis._compute_joint_displacements b ld st).n_tensile_failures =
      st.n_tensile_failures := by
  unfold Analysis._compute_joint_displacements
  generalize List.range' 1 ld.n_load_instances = l
  induction l generalizing st with
  | nil => exact ⟨rfl, rfl, rfl⟩
  | cons c t ih =>
    rw [List.foldl_cons]
    exact ih _

theorem postInvertState_preserves (b : Bridge) (ld : BridgeLoads)
    (fpow : ℚ → ℚ → ℚ) (K : QMat) :
    (postInvertState b ld fpow K).error = AnalysisError.NoAnalysisError ∧
    (postInvertState b ld fpow K).n_compressive_failures = 0 ∧
    (postInvertState b ld fpow K).n_tensile_failures = 0 := by
  have h := compute_joint_displacements_preserves b (preInvertState b ld).2
    { (preInvertState b ld).1 with stiffness := K }
  exact ⟨h.1, h.2.1, h.2.2⟩

/-- Claim C1: for every bridge whose member numbers are distinct (as the
sequential numbering in `add_member` guarantees), `Analysis.get_results`
returns valid = true iff the stiffness inversion found no bad pivot and,
over the strengths and member forces the pipeline computes, no member
fails compressively or tensilely in the claim's sense. -/
theorem c1_get_results_valid_iff (b : Bridge) (ld : BridgeLoads)
    (fpow : ℚ → ℚ → ℚ) (hnodup : (b.members.map Member.number).Nodup) :
    (Analysis.get_results b ld fpow).1 = true ↔
      ∃ K, invert (preInvertState b ld).1.n_equations
          (preInvertState b ld).1.stiffness = some K ∧
        ∀ m ∈ b.members,
          ¬ specCompFails (postInvertState b ld fpow K).member_strength
              (postInvertState b ld fpow K).member_force ld.n_load_instances m ∧
          ¬ specTensFails (postInvertState b ld fpow K).member_strength
              (postInvertState b ld fpow K).member_force ld.n_load_instances m := by
  have hgr : Analysis.get_results b ld fpow =
      (match invert (preInvertState b ld).1.n_equations
          (preInvertState b ld).1.stiffness with
       | none => (false, calculate_cost b)
       | some K =>
         if (b.members.foldl (summarizeStep (preInvertState b ld).2)
              (postInvertState b ld fpow K)).error ≠ AnalysisError.NoAnalysisError ∨
            (b.members.foldl (summarizeStep (preInvertState b ld).2)
              (postInvertState b ld fpow K)).n_compressive_failures > 0 ∨
            (b.members.foldl (summarizeStep (preInvertState b ld).2)
              (postInvertState b ld fpow K)).n_tensile_failures > 0
         then (false, calculate_cost b) else (true, calculate_cost b)) := rfl
  rw [hgr]
  cases hinv : invert (preInvertState b ld).1.n_equations
      (preInvertState b ld).1.stiffness with
  | none => simp
  | some K =>
    change (ite _ (false, calculate_cost b) (true, calculate_cost b)).1 = true ↔ _
    obtain ⟨hc, ht, he⟩ := summarize_fold (preInvertState b ld).2 b.members
      (postInvertState b ld fpow K) hnodup
    obtain ⟨pe, pc, pt⟩ := postInvertState_preserves b ld fpow K
    have hnl : (preInvertState b ld).2.n_load_instances = ld.n_load_instances := rfl
    rw [hnl] at hc ht
    by_cases hz :
        b.members.countP (fun m =>
          decide (specCompFails (postInvertState b ld fpow K).member_strength
            (postInvertState b ld fpow K).member_force ld.n_load_instances m)) = 0 ∧
        b.members.countP (fun m =>
          decide (specTensFails (postInvertState b ld fpow K).member_strength
            (postInvertState b ld fpow K).member_force ld.n_load_instances m)) = 0
    · have hcond : ¬ ((b.members.foldl (summarizeStep (preInvertState b ld).2)
              (postInvertState b ld fpow K)).error ≠ AnalysisError.NoAnalysisError ∨
            (b.members.foldl (summarizeStep (preInvertState b ld).2)
              (postInvertState b ld fpow K)).n_compressive_failures > 0 ∨
            (b.members.foldl (summarizeStep (preInvertState b ld).2)
              (postInvertState b ld fpow K)).n_tensile_failures > 0) := by
        rintro (hx | hx | hx)
        · exact hx (he.trans pe)
        · rw [hc, pc, Nat.zero_add, hz.1] at hx
          exact absurd hx (lt_irrefl 0)
        · rw [ht, pt, Nat.zero_add, hz.2] at hx
          exact absurd hx (lt_irrefl 0)
      rw [if_neg hcond]
      constructor
      · intro _
        refine ⟨K, rfl, fun m hm => ?_⟩
        have h1 := List.countP_eq_zero.mp hz.1 m hm
        have h2 := List.countP_eq_zero.mp hz.2 m hm
        simp only [decide_eq_true_eq] at h1 h2
        exact ⟨h1, h2⟩
      · intro _; rfl
    · have hcond : (b.members.foldl (summarizeStep (preInvertState b ld).2)
              (postInvertState b ld fpow K)).error ≠ AnalysisError.NoAnalysisError ∨
            (b.members.foldl (summarizeStep (preInvertState b ld).2)
              (postInvertState b ld fpow K)).n_compressive_failures > 0 ∨
            (b.members.foldl (summarizeStep (preInvertState b ld).2)
              (postInvertState b ld fpow K)).n_tensile_failures > 0 := by
        by_cases h1 : b.members.countP (fun m =>
            decide (specCompFails (postInvertState b ld fpow K).member_strength
              (postInvertState b ld fpow K).member_force ld.n_load_instances m)) = 0
        · refine Or.inr (Or.inr ?_)
          rw [ht, pt, Nat.zero_add]
          rcases Nat.eq_zero_or_pos (b.members.countP (fun m =>
            decide (specTensFails (postInvertState b ld fpow K).member_strength
              (postInvertState b ld fpow K).member_force ld.n_load_instances m)))
            with h2 | h2
          · exact absurd ⟨h1, h2⟩ hz
          · exact h2
        · refine Or.inr (Or.inl ?_)
          rw [hc, pc, Nat.zero_add]
          exact Nat.pos_of_ne_zero h1
      rw [if_pos hcond]
      constructor
      · intro hx
        exact absurd hx Bool.false_ne_true
      · rintro ⟨K2, hK2, hall⟩
        obtain rfl := (Option.some.inj hK2).symm
        exfalso
        refine hz ⟨?_, ?_⟩
        · exact List.countP_eq_zero.mpr (fun m hm => by
            simp only [decide_eq_true_eq]
            exact (hall m hm).1)
        · exact List.countP_eq_zero.mpr (fun m hm => by
            simp only [decide_eq_true_eq]
            exact (hall m hm).2)

theorem c1_get_results_valid_iff_witness :
    ((Bridge.init descC8).members.map Member.number).Nodup ∧
      ((Analysis.get_results (Bridge.init descC8) ⟨0, 0, fun _ _ => 0⟩
          (fun _ _ => 0)).1 = true ↔
        ∃ K, invert (preInvertState (Bridge.init descC8) ⟨0, 0, fun _ _ => 0⟩).1.n_equations
            (preInvertState (Bridge.init descC8) ⟨0, 0, fun _ _ => 0⟩).1.stiffness = some K ∧
          ∀ m ∈ (Bridge.init descC8).members,
            ¬ specCompFails
                (postInvertState (Bridge.init descC8) ⟨0, 0, fun _ _ => 0⟩ (fun _ _ => 0) K).member_strength
                (postInvertState (Bridge.init descC8) ⟨0, 0, fun _ _ => 0⟩ (fun _ _ => 0) K).member_force
                (0 : ℕ) m ∧
            ¬ specTensFails
                (postInvertState (Bridge.init descC8) ⟨0, 0, fun _ _ => 0⟩ (fun _ _ => 0) K).member_strength
                (postInvertState (Bridge.init descC8) ⟨0, 0, fun _ _ => 0⟩ (fun _ _ => 0) K).member_force
                (0 : ℕ) m) :=
  ⟨show (List.map Member.number []).Nodup from List.nodup_nil,
   c1_get_results_valid_iff (Bridge.init descC8) ⟨0, 0, fun _ _ => 0⟩ (fun _ _ => 0)
     (show (List.map Member.number []).Nodup from List.nodup_nil)⟩

/-- Claim C2's per-member material-cost contribution: unit cost (by
material and section) × area × length × density. -/
def memberCost (p : Params) (member : Member) : ℚ :=
  let xs := member.cross_section
  xs.material.cost.getD xs.sectionIdx 0 *
    (shapeOf p xs.sectionIdx xs.size).area * member.length * xs.material.density

/-- Claim C2's material cost: the sum of the members' contributions. -/
def specMaterialCost (b : Bridge) : ℚ :=
  (b.members.map (memberCost b.parameters)).sum

/-- Claim C2's cross-section type: material, section family and size. -/
def specTypeKey (xs : CrossSection) : Material × ℕ × ℕ :=
  (xs.material, xs.sectionIdx, xs.size)

/-- The key `CrossSection.is_equal` actually compares: material short
name, section family and size. -/
def codeTypeKey (xs : CrossSection) : String × ℕ × ℕ :=
  (xs.material.short_name, xs.sectionIdx, xs.size)

/-- Claim C2's distinct-cross-section-type count over a bridge's members. -/
def specDistinctTypes (b : Bridge) : ℕ :=
  ((b.members.map (fun m => specTypeKey m.cross_section)).toFinset).card

/-- The member-loop body of `calculate_cost`. -/
def costStep (p : Params) : List CrossSection × ℚ → Member → List CrossSection × ℚ :=
  fun (used, mtl_cost) member =>
    let xs := member.cross_section
    let mtl_cost := mtl_cost + memberCost p member
    let found := (used.map (fun u => if xs.is_equal u then (0 : ℕ) else 1)).sum
    if found = used.length then (used ++ [xs], mtl_cost) else (used, mtl_cost)

theorem calculate_cost_eq (b : Bridge) :
    calculate_cost b = pyRound (2 *
        ((b.members.foldl (costStep b.parameters) ([], 0)).2 +
          b.n_joints * b.parameters.connection_cost) +
      ((b.members.foldl (costStep b.parameters) ([], 0)).1.length : ℚ) *
        b.parameters.ordering_fee +
      b.load_scenario.desc.site_cost) := rfl

theorem is_equal_iff_key (x u : CrossSection) :
    x.is_equal u = true ↔ codeTypeKey x = codeTypeKey u := by
  unfold CrossSection.is_equal codeTypeKey
  simp only [Bool.and_eq_true, beq_iff_eq, Prod.mk.injEq]
  tauto

theorem sum_indicator_le (xs : CrossSection) (used : List CrossSection) :
    (used.map (fun u => if xs.is_equal u then (0 : ℕ) else 1)).sum ≤ used.length := by
  induction used with
  | nil => simp
  | cons c t ih =>
    simp only [List.map_cons, List.sum_cons, List.length_cons]
    split_ifs <;> omega

theorem found_eq_length_iff (xs : CrossSection) (used : List CrossSection) :
    ((used.map (fun u => if xs.is_equal u then (0 : ℕ) else 1)).sum = used.length) ↔
      ∀ u ∈ used, ¬ xs.is_equal u = true := by
  induction used with
  | nil => simp
  | cons c t ih =>
    simp only [List.map_cons, List.sum_cons, List.length_cons, List.mem_cons]
    by_cases h : xs.is_equal c = true
    · rw [if_pos h]
      constructor
      · intro he
        exfalso
        have hle := sum_indicator_le xs t
        omega
      · intro hall
        exact absurd h (hall c (Or.inl rfl))
    · rw [if_neg h]
      constructor
      · intro he u hu
        rcases hu with rfl | hu
        · exact h
        · exact (ih.mp (by omega)) u hu
      · intro hall
        have := ih.mpr (fun u hu => hall u (Or.inr hu))
        omega

theorem costStep_eq (p : Params) (used : List CrossSection) (mtl : ℚ) (m : Member) :
    costStep p (used, mtl) m =
      if (used.map (fun u => if m.cross_section.is_equal u then (0 : ℕ) else 1)).sum
          = used.length
      then (used ++ [m.cross_section], mtl + memberCost p m)
      else (used, mtl + memberCost p m) := rfl

theorem costStep_fold (p : Params) (l : List Member) :
    ∀ (used : List CrossSection) (mtl : ℚ),
      (l.foldl (costStep p) (used, mtl)).2 = mtl + (l.map (memberCost p)).sum ∧
      ((l.foldl (costStep p) (used, mtl)).1.map codeTypeKey).toFinset =
        (used.map codeTypeKey).toFinset ∪
          (l.map (fun m => codeTypeKey m.cross_section)).toFinset ∧
      ((used.map codeTypeKey).Nodup →
        ((l.foldl (costStep p) (used, mtl)).1.map codeTypeKey).Nodup) := by
  induction l with
  | nil =>
    intro used mtl
    exact ⟨by simp, by simp, fun h => h⟩
  | cons m t ih =>
    intro used mtl
    rw [List.foldl_cons]
    by_cases h : ∀ u ∈ used, ¬ m.cross_section.is_equal u = true
    · rw [costStep_eq, if_pos ((found_eq_length_iff _ _).mpr h)]
      obtain ⟨s1, s2, s3⟩ := ih (used ++ [m.cross_section]) (mtl + memberCost p m)
      refine ⟨?_, ?_, ?_⟩
      · rw [s1, List.map_cons, List.sum_cons]
        ring
      · rw [s2, List.map_append, List.toFinset_append, List.map_cons,
          List.map_nil, List.toFinset_cons, List.toFinset_nil, List.map_cons,
          List.toFinset_cons]
        ext k
        simp only [Finset.mem_union, Finset.mem_insert, Finset.not_mem_empty,
          or_false]
        tauto
      · intro hnd
        refine s3 ?_
        rw [List.map_append, List.map_cons, List.map_nil]
        refine List.Nodup.append hnd (List.nodup_singleton _) ?_
        intro k hk hk2
        rw [List.mem_singleton] at hk2
        rw [List.mem_map] at hk
        obtain ⟨u, hu, rfl⟩ := hk
        exact h u hu ((is_equal_iff_key _ _).mpr hk2.symm)
    · rw [costStep_eq, if_neg (fun hq => h ((found_eq_length_iff _ _).mp hq))]
      obtain ⟨s1, s2, s3⟩ := ih used (mtl + memberCost p m)
      refine ⟨?_, ?_, s3⟩
      · rw [s1, List.map_cons, List.sum_cons]
        ring
      · rw [s2, List.map_cons, List.toFinset_cons]
        push_neg at h
        obtain ⟨u, hu, hueq⟩ := h
        have hkey : codeTypeKey m.cross_section = codeTypeKey u :=
          (is_equal_iff_key _ _).mp hueq
        ext k
        simp only [Finset.mem_union, Finset.mem_insert, List.mem_toFinset,
          List.mem_map]
        constructor
        · rintro (hk | hk)
          · exact Or.inl hk
          · exact Or.inr (Or.inr hk)
        · rintro (hk | hk | hk)
          · exact Or.inl hk
          · exact Or.inl ⟨u, hu, (hk.trans hkey).symm⟩
          · exact Or.inr hk

theorem add_member_both_exist (b : Bridge) (sx sy ex ey : ℤ) (mi si sz : ℕ)
    (hne : ¬ (sx - b.pad_x_action = ex - b.pad_x_action ∧
      sy - b.pad_y_action = ey - b.pad_y_action))
    (hs : coordsMem b.joint_coords (sx - b.pad_x_action, sy - b.pad_y_action) = true)
    (he : coordsMem b.joint_coords (ex - b.pad_x_action, ey - b.pad_y_action) = true) :
    (b.add_member sx sy ex ey mi si sz).2.members = b.members ++
      [Member.init (b.n_members + 1)
        ((b.joint_coords.lookup (sx - b.pad_x_action, sy - b.pad_y_action)).getD default)
        ((b.joint_coords.lookup (ex - b.pad_x_action, ey - b.pad_y_action)).getD default)
        (CrossSection.init b.parameters mi si sz) b.load_scenario.grid_size] ∧
    (b.add_member sx sy ex ey mi si sz).2.n_joints = b.n_joints ∧
    (b.add_member sx sy ex ey mi si sz).2.parameters = b.parameters := by
  unfold Bridge.add_member
  rw [if_neg hne, if_neg (fun hq => hq.1 hs), if_neg (not_not_intro hs),
    if_neg (not_not_intro he)]
  exact ⟨rfl, rfl, rfl⟩

theorem list_toFinset_map {α β : Type} [DecidableEq α] [DecidableEq β]
    (f : α → β) (l : List α) : (l.map f).toFinset = l.toFinset.image f := by
  ext b
  simp

/-- Claim C2 (amended): `calculate_cost` returns
round(2·(material_cost + connection_cost) + product_cost + site_cost),
with the distinct cross-section types counted by (material, section,
size) — equivalent to the code's (short name, section, size) key under
the stated short-name injectivity, which the catalog satisfies — and
adding a second member between two existing joints whose cross-section
type is already in use adds that member's material-cost contribution
while leaving both the joint count (hence the connection-cost term) and
the distinct-type count (hence the product-cost term) unchanged. -/
theorem c2_calculate_cost_dedup (b : Bridge)
    (hmat : ∀ m1 ∈ b.members, ∀ m2 ∈ b.members,
      m1.cross_section.material.short_name = m2.cross_section.material.short_name →
      m1.cross_section.material = m2.cross_section.material) :
    calculate_cost b = pyRound (2 * (specMaterialCost b +
        b.n_joints * b.parameters.connection_cost) +
      (specDistinctTypes b : ℚ) * b.parameters.ordering_fee +
      b.load_scenario.desc.site_cost) ∧
    (∀ (sx sy ex ey : ℤ) (mi si sz : ℕ),
      ¬ (sx - b.pad_x_action = ex - b.pad_x_action ∧
        sy - b.pad_y_action = ey - b.pad_y_action) →
      coordsMem b.joint_coords (sx - b.pad_x_action, sy - b.pad_y_action) = true →
      coordsMem b.joint_coords (ex - b.pad_x_action, ey - b.pad_y_action) = true →
      (∃ m ∈ b.members, specTypeKey m.cross_section =
        specTypeKey (CrossSection.init b.parameters mi si sz)) →
      (b.add_member sx sy ex ey mi si sz).2.n_joints = b.n_joints ∧
      specDistinctTypes (b.add_member sx sy ex ey mi si sz).2 = specDistinctTypes b ∧
      specMaterialCost (b.add_member sx sy ex ey mi si sz).2 = specMaterialCost b +
        memberCost b.parameters (Member.init (b.n_members + 1)
          ((b.joint_coords.lookup (sx - b.pad_x_action, sy - b.pad_y_action)).getD default)
          ((b.joint_coords.lookup (ex - b.pad_x_action, ey - b.pad_y_action)).getD default)
          (CrossSection.init b.parameters mi si sz) b.load_scenario.grid_size)) := by
  constructor
  · rw [calculate_cost_eq]
    obtain ⟨s1, s2, s3⟩ := costStep_fold b.parameters b.members [] 0
    have hnd := s3 (by simp)
    have hlen : ((b.members.foldl (costStep b.parameters) ([], 0)).1.length : ℚ) =
        (specDistinctTypes b : ℚ) := by
      have h1 : (b.members.foldl (costStep b.parameters) ([], 0)).1.length =
          ((b.members.map (fun m => codeTypeKey m.cross_section)).toFinset).card := by
        rw [← List.length_map (b.members.foldl (costStep b.parameters) ([], 0)).1
          codeTypeKey, ← List.toFinset_card_of_nodup hnd, s2]
        simp
      have hmapeq : b.members.map (fun m => codeTypeKey m.cross_section) =
          (b.members.map (fun m => specTypeKey m.cross_section)).map
            (fun k => (k.1.short_name, k.2)) := by
        rw [List.map_map]
        rfl
      have h2 : ((b.members.map (fun m => codeTypeKey m.cross_section)).toFinset).card =
          specDistinctTypes b := by
        unfold specDistinctTypes
        rw [hmapeq, list_toFinset_map]
        refine Finset.card_image_of_injOn ?_
        intro k1 hk1 k2 hk2 hf
        rw [Finset.mem_coe, List.mem_toFinset, List.mem_map] at hk1 hk2
        obtain ⟨m1, hm1, rfl⟩ := hk1
        obtain ⟨m2, hm2, rfl⟩ := hk2
        simp only [specTypeKey, Prod.mk.injEq] at hf ⊢
        refine ⟨hmat m1 hm1 m2 hm2 hf.1, hf.2⟩
      rw [h1, h2]
    rw [s1, zero_add, hlen]
    rfl
  · intro sx sy ex ey mi si sz hne hs he hkey
    obtain ⟨hmem, hnj, hpar⟩ := add_member_both_exist b sx sy ex ey mi si sz hne hs he
    refine ⟨hnj, ?_, ?_⟩
    · unfold specDistinctTypes
      rw [hmem, List.map_append, List.toFinset_append]
      congr 1
      rw [List.map_cons, List.map_nil, List.toFinset_cons, List.toFinset_nil]
      refine Finset.union_eq_left.mpr ?_
      intro k hk
      rw [Finset.mem_insert] at hk
      rcases hk with rfl | hk
      · obtain ⟨m0, hm0, hk0⟩ := hkey
        rw [List.mem_toFinset, List.mem_map]
        exact ⟨m0, hm0, hk0⟩
      · exact absurd hk (Finset.not_mem_empty k)
    · unfold specMaterialCost
      rw [hmem, hpar, List.map_append, List.sum_append, List.map_cons,
        List.map_nil, List.sum_cons, List.sum_nil, add_zero]

/-- One panel, no pier: the fresh bridge, with one member added between
the two deck joints (grid (0,0)-(1,0), action coordinates (0,96)-(1,96)). -/
def bridgeC2 : Bridge := ((Bridge.init descC8).add_member 0 96 1 96 0 0 0).2

/-- Claim C2's dedup sentence says adding a second member with an
already-used cross-section increases the connection cost; on this
bridge the duplicate member is accepted (member count rises, same
cross-section type) yet the joint count — and with it the connection
cost n_joints × connection_cost — is unchanged. -/
theorem c2_counterexample :
    bridgeC2.n_members = 1 ∧
    specTypeKey ((bridgeC2.members.getD 0 default).cross_section) =
      specTypeKey (CrossSection.init bridgeC2.parameters 0 0 0) ∧
    (bridgeC2.add_member 0 96 1 96 0 0 0).1 = BridgeNoError ∧
    (bridgeC2.add_member 0 96 1 96 0 0 0).2.n_members = bridgeC2.n_members + 1 ∧
    (bridgeC2.add_member 0 96 1 96 0 0 0).2.n_joints = bridgeC2.n_joints :=
  ⟨by decide, rfl, by decide, by decide, by decide⟩

theorem c2_calculate_cost_dedup_witness :
    (∀ m1 ∈ (Bridge.init descC8).members, ∀ m2 ∈ (Bridge.init descC8).members,
      m1.cross_section.material.short_name = m2.cross_section.material.short_name →
      m1.cross_section.material = m2.cross_section.material) ∧
    (calculate_cost (Bridge.init descC8) =
      pyRound (2 * (specMaterialCost (Bridge.init descC8) +
          (Bridge.init descC8).n_joints * (Bridge.init descC8).parameters.connection_cost) +
        (specDistinctTypes (Bridge.init descC8) : ℚ) *
          (Bridge.init descC8).parameters.ordering_fee +
        (Bridge.init descC8).load_scenario.desc.site_cost) ∧
    (∀ (sx sy ex ey : ℤ) (mi si sz : ℕ),
      ¬ (sx - (Bridge.init descC8).pad_x_action = ex - (Bridge.init descC8).pad_x_action ∧
        sy - (Bridge.init descC8).pad_y_action = ey - (Bridge.init descC8).pad_y_action) →
      coordsMem (Bridge.init descC8).joint_coords
        (sx - (Bridge.init descC8).pad_x_action, sy - (Bridge.init descC8).pad_y_action) = true →
      coordsMem (Bridge.init descC8).joint_coords
        (ex - (Bridge.init descC8).pad_x_action, ey - (Bridge.init descC8).pad_y_action) = true →
      (∃ m ∈ (Bridge.init descC8).members, specTypeKey m.cross_section =
        specTypeKey (CrossSection.init (Bridge.init descC8).parameters mi si sz)) →
      ((Bridge.init descC8).add_member sx sy ex ey mi si sz).2.n_joints =
        (Bridge.init descC8).n_joints ∧
      specDistinctTypes ((Bridge.init descC8).add_member sx sy ex ey mi si sz).2 =
        specDistinctTypes (Bridge.init descC8) ∧
      specMaterialCost ((Bridge.init descC8).add_member sx sy ex ey mi si sz).2 =
        specMaterialCost (Bridge.init descC8) +
        memberCost (Bridge.init descC8).parameters
          (Member.init ((Bridge.init descC8).n_members + 1)
            (((Bridge.init descC8).joint_coords.lookup
              (sx - (Bridge.init descC8).pad_x_action,
               sy - (Bridge.init descC8).pad_y_action)).getD default)
            (((Bridge.init descC8).joint_coords.lookup
              (ex - (Bridge.init descC8).pad_x_action,
               ey - (Bridge.init descC8).pad_y_action)).getD default)
            (CrossSection.init (Bridge.init descC8).parameters mi si sz)
            (Bridge.init descC8).load_scenario.grid_size))) :=
  ⟨fun m1 h1 => absurd h1 (List.not_mem_nil m1),
   c2_calculate_cost_dedup (Bridge.init descC8)
     (fun m1 h1 => absurd h1 (List.not_mem_nil m1))⟩

end PyBridge
